import Mathlib

/-!
Shallow embedding of `auto2cmake.py` (autotools → CMake converter) and proofs
about the claims of its specification.

Conventions of the embedding:
* Python strings are `String`; slicing `s[n:]` / `s[:-n]` is done on `s.data`.
* Python `x in s` (substring test) is `pyIn`.
* Python dicts (insertion ordered) are association lists `List (String × α)`;
  `dict[k] = v` is `aset` (updates in place, keeps position), reading is
  `List.lookup`.
* Python `sorted` (Timsort) is `List.insertionSort`: both are stable sorts with
  respect to the same total preorder, so they produce identical outputs.
* Python's `==` between a `str` and a `list` is always `False`; the source
  exploits (accidentally) such comparisons, so fields that can dynamically hold
  either a string or a list of strings are modelled by `PyStrList` and compared
  with `pyEqStrV`, which is `false` on the list/str mismatch exactly as Python.
* The filesystem is a parameter: `fs : List String` is the set of existing
  file paths (`os.path.isfile p` is `p ∈ fs`).
* `difflib.SequenceMatcher.ratio() > 0.5` (an external library call) is an
  opaque parameter `simGtHalf : String → String → Bool` of the fuzzy pass.
-/

/-! ### Python string primitives -/

/-- Python substring containment `needle in hay`. -/
def pyIn (needle hay : String) : Bool := decide (needle.data <:+: hay.data)

/-- Python slice `s[n:]` (code-point based, like Python). -/
def pyDrop (s : String) (n : Nat) : String := ⟨s.data.drop n⟩

/-- Python slice `s[:-n]` for `n > 0`. -/
def pyDropRight (s : String) (n : Nat) : String := ⟨s.data.take (s.data.length - n)⟩

/-- Core of Python `str.strip()` on a character list. -/
def stripChars (l : List Char) : List Char :=
  ((l.dropWhile Char.isWhitespace).reverse.dropWhile Char.isWhitespace).reverse

/-- Python `str.strip()`. -/
def pyStrip (s : String) : String := ⟨stripChars s.data⟩

/-- Whitespace fields of a character list (Python `str.split()` with no
argument: split on whitespace runs, no empty fields). -/
def fieldsAux : List Char → List Char → List (List Char)
  | [], acc => if acc = [] then [] else [acc.reverse]
  | c :: t, acc =>
    if c.isWhitespace then
      (if acc = [] then fieldsAux t [] else acc.reverse :: fieldsAux t [])
    else fieldsAux t (c :: acc)

/-- Python `str.split()` with no argument. -/
def pySplitWs (s : String) : List String := (fieldsAux s.data []).map String.mk

/-- Python `str.upper()` (ASCII, as in all inputs of interest). -/
def pyUpper (s : String) : String := ⟨s.data.map Char.toUpper⟩

/-- Python `str.startswith(pat)`. -/
def pyStartsWith (s pat : String) : Bool := pat.data.isPrefixOf s.data

/-- Python `str.endswith(pat)`. -/
def pyEndsWith (s pat : String) : Bool := pat.data.isSuffixOf s.data

/-- Replace every (non-overlapping, left-to-right) occurrence of `pat` by
`repl`; the fuel is the number of characters still to be consumed, so
`length + 1` always suffices. -/
def replaceAllFuel (pat repl : List Char) : Nat → List Char → List Char
  | 0, hay => hay
  | fuel + 1, hay =>
    match hay with
    | [] => []
    | c :: t =>
      if pat.isPrefixOf (c :: t) ∧ pat ≠ [] then
        repl ++ replaceAllFuel pat repl fuel ((c :: t).drop pat.length)
      else c :: replaceAllFuel pat repl fuel t

/-- Python `str.replace(pat, repl)` (all occurrences; the sources never call
it with an empty pattern). -/
def pyReplace (s pat repl : String) : String :=
  if pat = "" then s
  else ⟨replaceAllFuel pat.data repl.data (s.data.length + 1) s.data⟩

/-- Python `sep.split` on a string separator (the sources only use non-empty
separators); fuelled like `replaceAllFuel`. -/
def splitOnFuel (sep : List Char) : Nat → List Char → List Char → List (List Char)
  | 0, hay, acc => [acc.reverse ++ hay]
  | fuel + 1, hay, acc =>
    match hay with
    | [] => [acc.reverse]
    | c :: t =>
      if sep.isPrefixOf (c :: t) ∧ sep ≠ [] then
        acc.reverse :: splitOnFuel sep fuel ((c :: t).drop sep.length) []
      else splitOnFuel sep fuel t (c :: acc)

/-- Python `s.split(sep)` for a non-empty separator. -/
def pySplitOnStr (s sep : String) : List String :=
  (splitOnFuel sep.data (s.data.length + 1) s.data []).map String.mk

/-- Python `sep.join(parts)`. -/
def pyIntercalate (sep : String) : List String → String
  | [] => ""
  | x :: t => t.foldl (fun acc y => acc ++ sep ++ y) x

/-- Python `str.replace(pat, repl, 1)`: replace the first occurrence only.
Auxiliary scanner: returns the part before the first occurrence and the part
after it. -/
def firstOccurAux (pat : List Char) : List Char → List Char → Option (List Char × List Char)
  | [], acc => if pat = [] then some (acc.reverse, []) else none
  | c :: t, acc =>
    if pat.isPrefixOf (c :: t) then some (acc.reverse, (c :: t).drop pat.length)
    else firstOccurAux pat t (c :: acc)

/-- Python `str.replace(pat, repl, 1)`. -/
def replaceOnce (s pat repl : String) : String :=
  if pat = "" then repl ++ s
  else match firstOccurAux pat.data s.data [] with
       | none => s
       | some (a, b) => ⟨a ++ repl.data ++ b⟩

/-- Python string comparison `a < b` is code-point lexicographic; we sort with
the corresponding `≤` on the underlying character lists. -/
def strLe (a b : String) : Prop := a.data ≤ b.data

instance : DecidableRel strLe := fun a b =>
  inferInstanceAs (Decidable (a.data ≤ b.data))

instance : IsTotal String strLe := ⟨fun a b => IsTotal.total (r := (· ≤ ·)) a.data b.data⟩

instance : IsTrans String strLe := ⟨fun _ _ _ h₁ h₂ => le_trans h₁ h₂⟩

instance : IsAntisymm String strLe := ⟨fun a b h₁ h₂ => by
  cases a; cases b; simp only [strLe] at h₁ h₂
  exact congrArg String.mk (le_antisymm h₁ h₂)⟩

/-- Python `sorted` on strings: a stable sort by code-point order.  Timsort and
insertion sort are both stable, hence produce the same output list. -/
def pySorted (l : List String) : List String := List.insertionSort strLe l

/-! ### Values that are dynamically a Python `str` or a `list` of strings

The source initialises `Library.condition` and `Library.compiler_flags` to
`[]` but then extends them with `+= some_string` (which appends the string's
characters, as one-character strings) or overwrites them with `= some_string`.
-/

inductive PyStrList where
  | str (s : String)
  | list (l : List String)
  deriving DecidableEq, Repr

/-- Python truthiness of a `str` or `list` value. -/
def PyStrList.truthy : PyStrList → Bool
  | .str s => s ≠ ""
  | .list l => l ≠ []

/-- Python `v += s` where `s` is a string: a list is extended with the string's
characters (each a one-character string), a string is concatenated. -/
def PyStrList.extendStr : PyStrList → String → PyStrList
  | .list l, s => .list (l ++ s.data.map (fun c => String.mk [c]))
  | .str t, s => .str (t ++ s)

/-- Python `"".join(v)` and also `for c in v: acc += c`: flatten to a string. -/
def PyStrList.flat : PyStrList → String
  | .str s => s
  | .list l => String.join l

/-- Python `some_string == v`: comparing a `str` with a `list` is `False`. -/
def pyEqStrV (v : PyStrList) (s : String) : Bool :=
  match v with
  | .str t => t == s
  | .list _ => false

/-! ### Association-list operations mirroring Python dicts -/

/-- Python `d[k] = v`: update in place (keeping the key's position) or append. -/
def aset {α : Type} (k : String) (v : α) : List (String × α) → List (String × α)
  | [] => [(k, v)]
  | (k', v') :: t => if k' = k then (k, v) :: t else (k', v') :: aset k v t

/-- Update the value at an existing key, leaving the list unchanged otherwise. -/
def aupdate {α : Type} (k : String) (f : α → α) : List (String × α) → List (String × α)
  | [] => []
  | (k', v') :: t => if k' = k then (k', f v') :: t else (k', v') :: aupdate k f t

/-! ### Lexical utilities of the source -/

/-- Source `replace_quotes`: escape double quotes. -/
def replace_quotes (a : String) : String := pyReplace a "\"" "\\\""

/-- Source `should_exclude`: `dire` starts with some configured exclude entry. -/
def should_exclude (exclude_directories : List String) (dire : String) : Bool :=
  exclude_directories.any (fun exc => pyStartsWith dire exc)

/-- Source `remove_garbage`: strip bracket/comma/dollar/paren characters. -/
def remove_garbage (extra_value : String) : String :=
  pyStrip (pyReplace (pyReplace (pyReplace (pyReplace (pyReplace (pyReplace
    extra_value "]" "") "," "") "[" "") "$" "") "(" "") ")" "")

/-- Source `canonicalize`: non-alphanumeric, non-underscore characters become
underscores (Python `isdigit`/`isalpha`; ASCII in all inputs of interest). -/
def canonicalize (a : String) : String :=
  ⟨a.data.map (fun c => if c.isDigit || c.isAlpha || c = '_' then c else '_')⟩

/-! ### The Option registry (source class `Option`, renamed: the name clashes
with the Lean builtin) -/

structure Opt where
  name : String
  description : String
  status : String
  define : String
  define_value : String
  define_description : String
  extra_defines : List String
  deriving DecidableEq, Repr

/-- Source `Option.__init__` with `upcase_identifiers = 1` (the default). -/
def Opt.make (name description status define define_value define_description : String) : Opt :=
  let name := pyReplace name "-" "_"
  { name := pyUpper name
    description := description
    status := status
    define := define
    define_value := pyReplace (pyReplace (pyReplace define_value "]" "") "," "") "[" ""
    define_description := define_description
    extra_defines := [] }

/-- Source `Option.set_define_value`: brackets are stripped only when a `[` is
present (and, unlike the constructor, commas are kept). -/
def Opt.set_define_value (o : Opt) (v : String) : Opt :=
  let v := if pyIn "[" v then pyReplace (pyReplace v "]" "") "[" "" else v
  { o with define_value := v }

/-- Source `Option.finalize`: defaults for near-empty fields. -/
def Opt.finalize (o : Opt) : Opt :=
  let d := if o.description.length ≤ 1 then "Enable " ++ o.name else o.description
  let s := if o.status.length ≤ 1 then "OFF" else o.status
  let dd := if o.define_description.length ≤ 1 then d else o.define_description
  { o with description := d, status := s, define_description := dd }

/-- Finalization of a registry entry (key untouched, value finalized). -/
def finKV (kv : String × Opt) : String × Opt := (kv.1, kv.2.finalize)

/-! ### Configure-script macro processing -/

/-- Description extraction of source `process_argument`: find the first `[`,
skip spaces, skip the option-name token, skip spaces, then take up to `]`.
(The source walks an index; on well-formed input this is the same scan.) -/
def arg_description (s : String) : String :=
  match s.data.dropWhile (fun c => c ≠ '[') with
  | [] => ""
  | _ :: rest =>
    let r1 := rest.dropWhile (fun c => c = ' ')
    let r2 := r1.dropWhile (fun c => c ≠ ' ')
    let r3 := r2.dropWhile (fun c => c = ' ')
    ⟨r3.takeWhile (fun c => c ≠ ']')⟩

/-- Key under which source `process_argument` stores the option: the argument
name up to the first comma, with `-` replaced by `_` (note: not uppercased —
only the `Option.name` field is uppercased by the constructor). -/
def arg_key (line : String) : String :=
  let s := pyStrip (pyDrop line "AC_ARG_ENABLE(".length)
  pyReplace (String.mk (s.data.takeWhile (fun c => c ≠ ','))) "-" "_"

/-- Source `process_argument`: create or update an Option from an
`AC_ARG_ENABLE(` line.  On update it overwrites name, description and status
(the bound define is untouched). -/
def process_argument (line : String) (options : List (String × Opt)) :
    List (String × Opt) :=
  let s := pyStrip (pyDrop line "AC_ARG_ENABLE(".length)
  let description := arg_description s
  let on_off := if pyIn "=yes" s then "ON" else "OFF"
  let arg_name := arg_key line
  match List.lookup arg_name options with
  | none => options ++ [(arg_name, Opt.make arg_name description on_off "" "" "")]
  | some _ =>
    aupdate arg_name
      (fun o => { o with name := arg_name, description := description, status := on_off })
      options

/-- Bound-variable scan of source `process_conditional`: characters after the
first `$`, up to a quote, space or `=` (the stage machine of the source). -/
def scanBound : List Char → Nat → String → String
  | [], _, acc => acc
  | c :: t, stage, acc =>
    if stage = 2 ∧ (c = '"' ∨ c = ' ' ∨ c = '=') then acc
    else scanBound t (if c = '$' then 2 else stage) (if stage = 2 then acc.push c else acc)

/-- Key under which source `process_conditional` stores the option. -/
def cond_key (line : String) : String :=
  let s := pyStrip (pyDrop line "AM_CONDITIONAL(".length)
  pyReplace (scanBound s.data 1 "") "-" "_"

/-- Define name extracted by source `process_conditional` (text up to comma). -/
def cond_define (line : String) : String :=
  let s := pyStrip (pyDrop line "AM_CONDITIONAL(".length)
  String.mk (s.data.takeWhile (fun c => c ≠ ','))

/-- Source `process_conditional`: bind a define symbol to the option named by
the referenced shell variable; creates the option if absent, otherwise only
sets its `define` field. -/
def process_conditional (line : String) (options : List (String × Opt)) :
    List (String × Opt) :=
  let define_name := cond_define line
  let bound_option := cond_key line
  match List.lookup bound_option options with
  | some _ => aupdate bound_option (fun o => { o with define := define_name }) options
  | none => options ++ [(bound_option, Opt.make bound_option "" "" define_name "" "")]

/-! ### File-list rendering (source `filelist_to_string`)

The filesystem is the parameter `fs` (list of existing paths); the function
returns the emitted text together with the printed diagnostics. -/

/-- A run of `spacecount` blanks. -/
def spacesOf (spacecount : Nat) : String := ⟨List.replicate spacecount ' '⟩

/-- One emitted line of `filelist_to_string`: a plain source line when the file
exists, otherwise a commented-out line with the fix-manually marker. -/
def filelist_entry (fs : List String) (source_directory : String) (spacecount : Nat)
    (file : String) : String :=
  if (source_directory ++ "/" ++ file) ∈ fs then
    "\n" ++ spacesOf spacecount ++ "$\x7bCMAKE_CURRENT_SOURCE_DIR\x7d/" ++ file
  else
    "\n#" ++ spacesOf spacecount ++ "$\x7bCMAKE_CURRENT_SOURCE_DIR\x7d/" ++ file ++
      " # File not found. Fix manually"

/-- The diagnostic printed for a missing file. -/
def missing_file_warning (source_directory file : String) : String :=
  "WARNING!!! The file: " ++ source_directory ++ "/" ++ file ++
    " is present in the Makefile.am but cannot be found in the filesystem"

/-- Source `filelist_to_string`: sorted traversal of the file names; returns
the accumulated text and the list of printed diagnostics. -/
def filelist_to_string (elements : List String) (source_directory : String)
    (spacecount : Nat) (fs : List String) : String × List String :=
  let sortedEls := pySorted elements
  (String.join (sortedEls.map (filelist_entry fs source_directory spacecount)),
   (sortedEls.filter
      (fun file => ¬ ((source_directory ++ "/" ++ file) ∈ fs))).map
     (missing_file_warning source_directory))

/-- Source `make_nice_library_name`: reduce a link token to a bare library
name (drop path, drop extension, drop leading `lib` / `-l`). -/
def make_nice_library_name (link_name : String) : String :=
  let link_name := pyReplace link_name "'" ""
  if pyStartsWith link_name "-L" then link_name
  else
    let fullp := pySplitOnStr link_name "/"
    let target_link_lib :=
      if fullp.length > 1 then fullp.getLastD "" else String.join fullp
    let target_link_lib :=
      if pyIn "." target_link_lib then
        let t := (pySplitOnStr target_link_lib ".").headD ""
        if pyStartsWith t "lib" then pyDrop t 3 else t
      else target_link_lib
    if pyStartsWith target_link_lib "-l" then pyDrop target_link_lib 2
    else target_link_lib

/-! ### The Build Model (source class `Library` and `TargetType`) -/

inductive TargetType where
  | LIBRARY
  | PROGRAM
  deriving DecidableEq, Repr

structure Library where
  name : String
  dependant : Bool
  filelist : List String
  /-- Initialised to `[]` but extended with `+= <string>` by the parser: a
  list of one-character strings (Python's list-extended-by-string slip). -/
  condition : PyStrList
  link_with_libs : List String
  compiler_flags : PyStrList
  linker_flags : List String
  conditional_appends : List (String × List String)
  just_variables : List (String × List (List String))
  target_type : TargetType
  ttype : String
  type : String
  referred_name : String
  canonic_name : String
  directory : String
  deriving DecidableEq, Repr

/-- Source `Library.__init__`. -/
def Library.init (name directory : String) : Library :=
  let dependant := pyIn "$" name
  let name' := if dependant then
      pyReplace (pyReplace (pyReplace name "$" "") "(" "") ")" ""
    else name
  let canonic_name := canonicalize name'
  if dependant then
    { name := name', dependant := true, filelist := [], condition := .list []
      link_with_libs := [], compiler_flags := .list [], linker_flags := []
      conditional_appends := [], just_variables := []
      target_type := .LIBRARY, ttype := "", type := "STATIC"
      referred_name := name', canonic_name := canonic_name, directory := directory }
  else if pyEndsWith name' ".a" then
    { name := name', dependant := false, filelist := [], condition := .list []
      link_with_libs := [], compiler_flags := .list [], linker_flags := []
      conditional_appends := [], just_variables := []
      target_type := .LIBRARY, ttype := "", type := "STATIC"
      referred_name := pyDropRight (pyDrop name' 3) 2
      canonic_name := canonic_name, directory := directory }
  else
    { name := name', dependant := false, filelist := [], condition := .list []
      link_with_libs := [], compiler_flags := .list [], linker_flags := []
      conditional_appends := [], just_variables := []
      target_type := .LIBRARY, ttype := "", type := "DYNAMIC"
      referred_name := pyDropRight (pyDrop name' 3) 3
      canonic_name := canonic_name, directory := directory }

/-- Source `has_library`: membership by canonical name. -/
def has_library (libraries : List Library) (name : String) : Bool :=
  libraries.any (fun l => l.canonic_name = name)

/-- Source `get_library_for_name`: first library with the canonical name. -/
def get_library_for_name (libraries : List Library) (name : String) : Option Library :=
  libraries.find? (fun l => l.canonic_name = name)

/-- Update (in place) the first library whose canonical name matches; mirrors
the source's mutation of the object returned by `get_library_for_name`. -/
def update_library (libraries : List Library) (name : String) (f : Library → Library) :
    List Library :=
  match libraries with
  | [] => []
  | l :: t => if l.canonic_name = name then f l :: t else l :: update_library t name f

/-- One target created by pass 1 of `process_makefile_am` from the declaring
`line` and one whitespace token `library_name`: the constructed Library is
marked as a program when the *line* (not just the variable) contains
`_PROGRAMS`. -/
def target_of_declaration (line library_name makefiles_directory : String) : Library :=
  let library := Library.init library_name makefiles_directory
  if pyIn "_PROGRAMS" line then
    { library with target_type := .PROGRAM, referred_name := library.canonic_name }
  else library

/-- Pass 1 of source `process_makefile_am` for a single line: create targets
from a `_LIBRARIES` / `_PROGRAMS` declaration, deduplicating by canonical
name; excluded directories create nothing. -/
def makefile_pass1_line (exclude_directories : List String) (current_directory : String)
    (libraries : List Library) (line : String) : List Library :=
  let line := pyStrip line
  if pyStartsWith line "#" then libraries
  else if pyIn "_LIBRARIES" line || pyIn "_PROGRAMS" line then
    let elements := pySplitWs line
    let library_names := elements.drop 2
    let process_it := ¬ exclude_directories.any
      (fun exc => pyStartsWith current_directory exc && exc ≠ "")
    if process_it then
      library_names.foldl
        (fun libs library_name =>
          let library := target_of_declaration line library_name current_directory
          if has_library libs library.canonic_name then libs else libs ++ [library])
        libraries
    else libraries
  else libraries

/-! ### Pass 2 of `process_makefile_am`: attribute gathering -/

/-- Per-variable record of source `defined_variables[var]`: parallel lists of
value token-lists and the condition active at each assignment. -/
structure DefVar where
  value : List (List String)
  condition : List String
  deriving DecidableEq, Repr

/-- State threaded through pass 2 of `process_makefile_am`. -/
structure Pass2State where
  libraries : List Library
  defined_variables : List (String × DefVar)
  libraries_in_this_file : List String
  if_condition : String
  dirs_to_go_in : String
  deriving DecidableEq, Repr

/-- Backslash-continuation joining: the source appends the following stripped
lines while the accumulated line ends in a backslash. -/
def joinContinuedAux (content : List String) : Nat → Nat → String → String
  | _, 0, line => line
  | i, fuel + 1, line =>
    if pyEndsWith line "\\" then
      joinContinuedAux content (i + 1) fuel (line ++ pyStrip (content.getD (i + 1) ""))
    else line

/-- The logical line starting at index `i` of the file content. -/
def joinContinued (content : List String) (i : Nat) : String :=
  joinContinuedAux content i content.length (pyStrip (content.getD i ""))

/-- Source `''.join('%-1s' % item for item in line.split('\t '))`: removes
tab-space pairs (an empty piece formats to a single blank). -/
def tabSpaceFix (s : String) : String :=
  String.join ((pySplitOnStr s "\t ").map (fun item => if item = "" then " " else item))

/-- Dispatch of one joined assignment line on the variable-name suffix
(`_SOURCES`, `_LDADD`, compiler-flag suffixes, `_LDFLAGS`, `SUBDIRS`, plain
variables).  `line` is the joined, backslash-stripped, tab-space-fixed text. -/
def makefile_assignment (line : String) (st : Pass2State) : Pass2State :=
  let elements := pySplitOnStr line "="
  let variable0 := pyStrip (elements.getD 0 "")
  let varName := if pyIn "+" variable0 then pyStrip (pyReplace variable0 "+" "") else variable0
  let rhs := elements.getD 1 ""
  let plusEq := pyIn "+=" line
  let ifc := st.if_condition
  let withCond : Library → Library := fun lib =>
    if ifc ≠ "" then { lib with condition := lib.condition.extendStr ifc } else lib
  -- _SOURCES
  let (libs, inFile, used) :=
    if pyEndsWith varName "_SOURCES" then
      let tname := pyDropRight varName "_SOURCES".length
      match get_library_for_name st.libraries tname with
      | some _ =>
        (update_library st.libraries tname (fun lib =>
           let lib := withCond lib
           if plusEq then { lib with filelist := lib.filelist ++ pySplitWs rhs }
           else { lib with filelist := pySplitWs rhs }),
         st.libraries_in_this_file ++ [tname], true)
      | none => (st.libraries, st.libraries_in_this_file, false)
    else (st.libraries, st.libraries_in_this_file, false)
  -- _LDADD
  let (libs, inFile, used) :=
    if pyEndsWith varName "_LDADD" then
      let tname := pyDropRight varName "_LDADD".length
      match get_library_for_name libs tname with
      | some _ =>
        (update_library libs tname (fun lib =>
           let lib := withCond lib
           if plusEq then { lib with link_with_libs := lib.link_with_libs ++ pySplitWs rhs }
           else { lib with link_with_libs := pySplitWs rhs }),
         inFile ++ [tname], true)
      | none => (libs, inFile, used)
    else (libs, inFile, used)
  -- _CXXFLAGS / _CPPFLAGS / _CFLAGS
  let (libs, inFile, used) :=
    if pyEndsWith varName "_CXXFLAGS" || pyEndsWith varName "_CPPFLAGS" ||
        pyEndsWith varName "_CFLAGS" then
      let tname := if pyEndsWith varName "_CFLAGS" then pyDropRight varName "_CFLAGS".length
                   else pyDropRight varName "_CXXFLAGS".length
      match get_library_for_name libs tname with
      | some _ =>
        (update_library libs tname (fun lib =>
           let lib := withCond lib
           let defines := pyStrip (replaceOnce (replaceOnce line varName "") "=" "")
           if plusEq then { lib with compiler_flags := lib.compiler_flags.extendStr defines }
           else { lib with compiler_flags := .str defines }),
         inFile ++ [tname], true)
      | none => (libs, inFile, used)
    else (libs, inFile, used)
  -- _LDFLAGS
  let (libs, inFile, used) :=
    if pyEndsWith varName "_LDFLAGS" then
      let tname := pyDropRight varName "_LDFLAGS".length
      match get_library_for_name libs tname with
      | some _ =>
        (update_library libs tname (fun lib =>
           let lib := withCond lib
           if plusEq then { lib with linker_flags := lib.linker_flags ++ pySplitWs rhs }
           else { lib with linker_flags := pySplitWs rhs }),
         inFile ++ [tname], true)
      | none => (libs, inFile, used)
    else (libs, inFile, used)
  if used then
    { st with libraries := libs, libraries_in_this_file := inFile }
  else
    let dirs := if varName = "SUBDIRS" then rhs else st.dirs_to_go_in
    let dvs :=
      if ¬ pyIn "_LIBRARIES" varName && ¬ pyIn "_PROGRAMS" varName then
        match List.lookup varName st.defined_variables with
        | none => st.defined_variables ++
            [(varName, { value := [pySplitWs rhs], condition := [ifc] })]
        | some _ => aupdate varName
            (fun d => { value := d.value ++ [pySplitWs rhs], condition := d.condition ++ [ifc] })
            st.defined_variables
      else st.defined_variables
    { st with libraries := libs, libraries_in_this_file := inFile,
              dirs_to_go_in := dirs, defined_variables := dvs }

/-- One index of pass 2: condition tracking on the raw stripped line, then the
assignment dispatch on the joined logical line.  (A continuation line is also
visited on its own at its own index, as in the source's `for i in range` loop
whose local `i += 1` does not skip lines.  The source's assignment test
`'=' in line or "+=" in line` is `pyIn "=" line`, since `"+="` contains `=`.
On a bare `if` line with no token after it the source raises IndexError; the
`getD` below returns `""` instead — such inputs are outside the model.) -/
def makefile_pass2_step (content : List String) (st : Pass2State) (i : Nat) : Pass2State :=
  let line := pyStrip (content.getD i "")
  if pyStartsWith line "#" then st
  else
    let st := if pyStartsWith line "if" then
      { st with if_condition := (pySplitWs line).getD 1 "" } else st
    let st := if pyStartsWith line "endif" then { st with if_condition := "" } else st
    if pyIn "=" line then
      makefile_assignment (tabSpaceFix (pyReplace (joinContinued content i) "\\" "")) st
    else st

/-- Pass 2 over the whole file content. -/
def makefile_pass2 (content : List String) (libraries : List Library) : Pass2State :=
  (List.range content.length).foldl (makefile_pass2_step content)
    { libraries := libraries, defined_variables := [], libraries_in_this_file := []
      if_condition := "", dirs_to_go_in := "" }

/-! ### Post-pass indirection resolution -/

/-- Effect of one defined variable on one library: if some file of the
library's file list references `$(var_name)`, fold the (condition, value)
pairs into `conditional_appends`; otherwise record the variable in
`just_variables`.  (The source's `found` flag stays `False` when the zip of
conditions and values is empty, falling back to `just_variables`.) -/
def apply_var_to_library (var_name : String) (dv : DefVar) (lib : Library) : Library :=
  if lib.filelist.any (fun file => pyIn ("$(" ++ var_name ++ ")") file) then
    let pairs := dv.condition.zip dv.value
    if pairs = [] then
      { lib with just_variables := aset var_name dv.value lib.just_variables }
    else
      let ca := pairs.foldl
        (fun ca (p : String × List String) =>
          let cond_name := remove_garbage p.1
          match List.lookup cond_name ca with
          | some existing => aset cond_name (existing ++ [pyIntercalate " " p.2]) ca
          | none => aset cond_name p.2 ca)
        lib.conditional_appends
      { lib with conditional_appends := ca }
  else { lib with just_variables := aset var_name dv.value lib.just_variables }

/-- The resolution loops at the end of `process_makefile_am`.  The source
iterates `set(libraries_in_this_file)` whose (hash) order is unspecified, but
every (variable, library) update is independent, so the result does not
depend on it; we iterate first occurrences. -/
def resolve_defined_variables (dvs : List (String × DefVar)) (libs_in_file : List String)
    (libraries : List Library) : List Library :=
  dvs.foldl (fun libs (kv : String × DefVar) =>
    (libs_in_file.dedup).foldl (fun libs lib_name =>
      update_library libs lib_name (apply_var_to_library kv.1 kv.2)) libs) libraries

/-- One child directory of the `SUBDIRS` loop: append the
`add_subdirectory` directive and the required-directory entry when the child
is not excluded. -/
def subdir_step (exclude_directories : List String) (current_directory : String)
    (acc : String × List String) (subdir : String) : String × List String :=
  if ¬ should_exclude exclude_directories (current_directory ++ "/" ++ subdir) then
    (acc.1 ++ "\nadd_subdirectory( " ++ subdir ++ " )",
     acc.2 ++ [current_directory ++ "/" ++ subdir])
  else acc

/-- The `SUBDIRS` tail of `process_makefile_am`: accumulate the
`add_subdirectory` directives for non-excluded children into the directory's
extra content and register them as required directories. -/
def process_subdirs (exclude_directories : List String) (current_directory : String)
    (dirs_to_go_in : String) (extra_content : List (String × String))
    (required_directories : List String) : List (String × String) × List String :=
  if dirs_to_go_in ≠ "" then
    let step := (pySplitWs dirs_to_go_in).foldl
      (subdir_step exclude_directories current_directory) ("", required_directories)
    (aset current_directory step.1 extra_content, step.2)
  else (extra_content, required_directories)

/-! ### The conversion-session state and `process_makefile_am` -/

/-- A raw preprocessor define captured from `configure.ac` (the entries of
source `temp_defines`). -/
structure TempDefine where
  name : String
  option_name : String
  description : String
  value : String
  used : Bool
  deriving DecidableEq, Repr

/-- The process-wide registries of the source, as one record. -/
structure ConvState where
  libraries : List Library
  options : List (String × Opt)
  temp_defines : List (String × TempDefine)
  config_ac_variables : List (String × List String)
  extra_content : List (String × String)
  required_directories : List String
  deriving DecidableEq, Repr

/-- Source `process_makefile_am` on already-loaded file content (the
filesystem read and the missing-file early return are outside the model). -/
def process_makefile_am (exclude_directories : List String) (current_directory : String)
    (content : List String) (st : ConvState) : ConvState :=
  if should_exclude exclude_directories current_directory then st
  else
    let libs1 := content.foldl (makefile_pass1_line exclude_directories current_directory)
      st.libraries
    let p2 := makefile_pass2 content libs1
    let libs2 := resolve_defined_variables p2.defined_variables p2.libraries_in_this_file
      p2.libraries
    let ecreq := process_subdirs exclude_directories current_directory p2.dirs_to_go_in
      st.extra_content st.required_directories
    { st with libraries := libs2, extra_content := ecreq.1, required_directories := ecreq.2 }

/-! ### The fuzzy Define-to-Option pass (tail of `process_configure_ac`) -/

/-- The match condition of the fuzzy pass: similarity above the 0.5 threshold
(`simGtHalf`, the opaque scorer) or case-insensitive containment either way. -/
def fuzzy_matches (simGtHalf : String → String → Bool) (td_name opt_key : String) : Bool :=
  simGtHalf (pyUpper td_name) (pyUpper opt_key) || pyIn (pyUpper td_name) (pyUpper opt_key) ||
    pyIn (pyUpper opt_key) (pyUpper td_name)

/-- One iteration of the fuzzy pass: an unused define is offered to every
option; each matching option receives it as an extra define, and the define
is marked used when at least one option matched. -/
def fuzzy_step (simGtHalf : String → String → Bool)
    (acc : List (String × TempDefine) × List (String × Opt)) (kv : String × TempDefine) :
    List (String × TempDefine) × List (String × Opt) :=
  if kv.2.used = false then
    let anyMatch := acc.2.any (fun ko => fuzzy_matches simGtHalf kv.1 ko.1)
    (acc.1 ++ [(kv.1, { kv.2 with used := anyMatch })],
     acc.2.map (fun ko =>
       if fuzzy_matches simGtHalf kv.1 ko.1 then
         (ko.1, { ko.2 with extra_defines := ko.2.extra_defines ++ [kv.1] })
       else ko))
  else (acc.1 ++ [kv], acc.2)

/-- The loop at the end of source `process_configure_ac` matching still-unused
defines to options by similarity or containment. -/
def fuzzy_match_pass (simGtHalf : String → String → Bool)
    (temp_defines : List (String × TempDefine)) (options : List (String × Opt)) :
    List (String × TempDefine) × List (String × Opt) :=
  temp_defines.foldl (fuzzy_step simGtHalf) ([], options)

/-! ### CMake generation: per-library content (source `process_libraries`)

`process_libraries` only reads the option registry and `config_ac_variables`;
its sole mutation of parsed state is the rewrite of `Library.condition` (from
a list of characters to a string) in the unmatched-condition branch.  The
debug `print("asd")` for `libauth.a` and the `added_files` emptiness warning
affect no state or output text and are not modelled. -/

/-- Inner scan of the conditional-append loops: each `$`-carrying entry whose
cleaned name is a known plain variable of the library (re)assigns the
unfolded file list; other entries leave the accumulator. -/
def unfolded_for (lib : Library) (fs : List String) (conditional_append : List String) :
    String :=
  conditional_append.foldl
    (fun unfolded cond_append =>
      if pyIn "$" cond_append then
        let nice_var_name := remove_garbage cond_append
        match List.lookup nice_var_name lib.just_variables with
        | some ls => (filelist_to_string ls.flatten lib.directory 8 fs).1
        | none => unfolded
      else unfolded)
    ""

/-- Accumulator of the conditional-append emission loop. -/
structure CondLoopAcc where
  content : String
  condition_required : String
  deriving DecidableEq, Repr

/-- The loop over `library.conditional_appends`: emit an `if(<option name>)`
block for every option whose bound define equals the condition token, an
`if(<raw token>)` block when no option matches, and an unconditional list
append for the empty condition. -/
def cond_appends_content (options : List (String × Opt)) (fs : List String)
    (lib : Library) : CondLoopAcc :=
  lib.conditional_appends.foldl
    (fun (acc : CondLoopAcc) (kv : String × List String) =>
      let cond := kv.1
      let conditional_append := kv.2
      if cond ≠ "" then
        let step := options.foldl
          (fun (s : CondLoopAcc × Bool) (ko : String × Opt) =>
            if ko.2.define = cond then
              let unfolded := unfolded_for lib fs conditional_append
              let body :=
                if unfolded ≠ "" then
                  "    list(APPEND $\x7bproject\x7d_SOURCES" ++ unfolded
                else
                  "    list(APPEND $\x7bproject\x7d_SOURCES\n        " ++
                    pyIntercalate "\n        " conditional_append
              (⟨s.1.content ++ "\nif(" ++ ko.2.name ++ ")\n" ++ body ++ "\n    )\nendif()\n",
                ko.2.name⟩, true)
            else s)
          (acc, false)
        if step.2 then step.1
        else
          ⟨step.1.content ++ "\nif(" ++ cond ++ ")\n" ++
             "    list(APPEND $\x7bproject\x7d_SOURCES\n        " ++
             pyIntercalate "\n        " conditional_append ++ "\n    )\nendif()\n",
           cond⟩
      else
        let add_regardless := conditional_append.filter (fun ca => ¬ pyIn "$" ca)
        let unfolded := unfolded_for lib fs conditional_append ++
          (filelist_to_string add_regardless lib.directory 8 fs).1
        ⟨acc.content ++ "list(APPEND $\x7bproject\x7d_SOURCES" ++ unfolded ++ "\n)\n",
         acc.condition_required⟩)
    ⟨"", ""⟩

/-- Leftmost match of the regex `\$\(.*\)` (greedy): from the first `$(` to
the last `)` after it. -/
def firstSubIdx (pat : List Char) : List Char → Nat → Option Nat
  | [], n => if pat = [] then some n else none
  | c :: t, n => if pat.isPrefixOf (c :: t) then some n else firstSubIdx pat t (n + 1)

/-- Last index of a character in a list. -/
def lastIdxOfChar (c : Char) (l : List Char) : Option Nat :=
  (l.reverse.findIdx? (fun x => x = c)).map (fun j => l.length - 1 - j)

/-- Source `re.search("\$\(.*\)", flag)`: the matched group, if any. -/
def dollarParenMatch (s : String) : Option String :=
  match firstSubIdx ['$', '('] s.data 0 with
  | none => none
  | some i =>
    let tl := s.data.drop i
    match lastIdxOfChar ')' (tl.drop 2) with
    | none => none
    | some j => some ⟨tl.take (2 + j + 1)⟩

/-- One Python `for flag in to_work_with_flags` pass with in-loop removal: the
iterator index `k` advances over the mutating list; the processed flag is
removed (first occurrence), so the element after it is skipped, exactly as in
CPython.  `fuel` bounds the recursion; the list never grows past its entry
length (each step removes one element and appends at most one). -/
def flagsInnerPass (cfg : List (String × List String)) :
    Nat → Nat → List String → List String → List String × List String
  | 0, _, lst, acc => (lst, acc)
  | fuel + 1, k, lst, acc =>
    if h : k < lst.length then
      let flag := lst.get ⟨k, h⟩
      let step : List String × List String :=
        if pyIn "$" flag then
          match dollarParenMatch flag with
          | some grp =>
            let desired_var := remove_garbage grp
            if desired_var = "top_srcdir" then (lst ++ ["\x7bCMAKE_SOURCE_DIR\x7d"], acc)
            else match List.lookup desired_var cfg with
                 | some vals => (lst, acc ++ vals)
                 | none => (lst, acc)
          | none => (lst, acc)
        else (lst, acc)
      flagsInnerPass cfg fuel (k + 1) (step.1.erase flag) step.2
    else (lst, acc)

/-- The `while not done` fixed-point of the compiler-flag indirection
resolution: repeat passes until no remaining flag contains `$`.  Each pass
strictly shrinks `(length + number of "$" flags)`, so the supplied fuel
(computed at the call site) always suffices. -/
def flagsLoop (cfg : List (String × List String)) :
    Nat → List String → List String → List String
  | 0, _, acc => acc
  | fuel + 1, lst, acc =>
    let p := flagsInnerPass cfg (lst.length + 1) 0 lst acc
    if p.1.any (fun f => pyIn "$" f) then flagsLoop cfg fuel p.1 p.2 else p.2

/-- The compiler-flag section: the direct `COMPILE_FLAGS` property text and
the resolved indirect values (used afterwards for include directories). -/
def compile_flags_content (cfg : List (String × List String)) (lib : Library) :
    String × List String :=
  let flags := pySplitWs lib.compiler_flags.flat
  let final_flags_str :=
    (flags.filter (fun f => ¬ pyIn "$" f && ¬ pyIn "@" f)).foldl
      (fun a f => a ++ replace_quotes f ++ " ") ""
  let to_work := flags.filter (fun f => pyIn "$" f || pyIn "@" f)
  let c :=
    if final_flags_str ≠ "" then
      "set_target_properties( " ++ lib.referred_name ++
        "\n    PROPERTIES COMPILE_FLAGS \"" ++ final_flags_str ++ "\"\n)"
    else ""
  (c, flagsLoop cfg (to_work.length * 2 + 2) to_work [])

/-- The include-directory section built from the resolved indirect flags. -/
def include_dirs_content (final_flags : List String) (referred_name : String) : String :=
  let include_directories := final_flags.foldl
    (fun acc flag =>
      let f := pyStrip (pyReplace flag "'" "")
      acc ++ ((pySplitWs f).filter (fun nf => pyStartsWith (pyStrip nf) "-I")).map
        (fun nf => pyReplace nf "$(top_srcdir)" "$\x7bCMAKE_SOURCE_DIR\x7d"))
    []
  if include_directories ≠ [] then
    "\ntarget_include_directories( " ++ referred_name ++ " PRIVATE" ++
      String.join (include_directories.map (fun i_d => "\n    " ++ pyReplace i_d "-I" "")) ++
      "\n)\n"
  else ""

/-- The `target_link_libraries` section. -/
def link_libs_content (cfg : List (String × List String)) (lib : Library) : String :=
  if lib.link_with_libs ≠ [] then
    (lib.link_with_libs.foldl
      (fun acc link_name =>
        let target_link_lib := make_nice_library_name link_name
        if pyStartsWith target_link_lib "$" then
          match List.lookup (remove_garbage target_link_lib) lib.just_variables with
          | some lists => acc ++ String.join (lists.map (fun sub =>
              String.join (sub.map (fun real_link =>
                "\n    " ++ make_nice_library_name real_link))))
          | none => acc
        else if pyStartsWith target_link_lib "@" then
          let canname := pyReplace target_link_lib "@" ""
          match List.lookup canname cfg with
          | some libsv =>
            acc ++ String.join (((pySplitWs (String.join libsv)).map
              make_nice_library_name).filterMap
                (fun ln => if pyStartsWith ln "-L" then none else some ("\n    " ++ ln)))
          | none => acc ++ "\n#    " ++ target_link_lib ++ " # <-- FIX THIS"
        else acc ++ "\n    " ++ target_link_lib)
      ("\ntarget_link_libraries( " ++ lib.referred_name)) ++ "\n)\n"
  else ""

/-- One library's generated text and the (possibly condition-rewritten)
library object: the body of the `for library in libraries` loop of source
`process_libraries`. -/
def library_content (options : List (String × Opt)) (cfg : List (String × List String))
    (fs : List String) (lib : Library) : String × Library :=
  let c0 := "# Generating the library " ++ lib.name ++ "\n" ++
    "set(project \"" ++ lib.referred_name ++ "\")\n\n" ++
    "set($\x7bproject\x7d, \"\")\n"
  let ca := cond_appends_content options fs lib
  let flStr := (filelist_to_string lib.filelist lib.directory 4 fs).1
  let condStep : String × String × Library :=
    if lib.condition.truthy then
      let step := options.foldl
        (fun (s : String × String × Bool) (ko : String × Opt) =>
          if pyEqStrV lib.condition ko.2.define then
            (s.1 ++ "if (" ++ ko.2.name ++ ")\n" ++
               "    list(APPEND $\x7bproject\x7d_SOURCES\n    " ++ flStr ++ ")\nendif()\n\n",
             ko.2.name, true)
          else s)
        ("", ca.condition_required, false)
      if step.2.2 then (step.1, step.2.1, lib)
      else
        let new_condition := lib.condition.flat
        (step.1 ++ "if (" ++ new_condition ++ ")\n" ++
           "    list(APPEND $\x7bproject\x7d_SOURCES\n    " ++ flStr ++ ")\nendif()\n\n",
         new_condition, { lib with condition := .str new_condition })
    else
      ("list(APPEND $\x7bproject\x7d_SOURCES\n    " ++ pyStrip flStr ++ "\n)\n",
       ca.condition_required, lib)
  let lib' := condStep.2.2
  let condition_required :=
    if lib'.condition.truthy then lib'.condition.flat else condStep.2.1
  let guardOpen := if condition_required ≠ "" then "if (" ++ condition_required ++ ")\n" else ""
  let creation :=
    if lib'.target_type = TargetType.LIBRARY then
      "add_library ( " ++ lib'.referred_name ++ " " ++ lib'.type ++ " " ++
        "$\x7b$\x7bproject\x7d_SOURCES\x7d )\n"
    else "add_executable(" ++ lib'.name ++ " $\x7b$\x7bproject\x7d_SOURCES\x7d )\n"
  let fl := compile_flags_content cfg lib'
  let inclPart := include_dirs_content fl.2 lib'.referred_name
  let linkPart := link_libs_content cfg lib'
  let endifPart := if condition_required ≠ "" then "\nendif()\n" else ""
  (c0 ++ ca.content ++ condStep.1 ++ guardOpen ++ creation ++ fl.1 ++ inclPart ++
     linkPart ++ endifPart, lib')

/-! ### CMake generation: top-level file (the body of source `convert` after
`configure.ac` processing, with the default switches `generate_comments = 1`,
`more_newlines = 1`) -/

/-- The `option(...)` block of one (already finalized) option. -/
def option_block (o : Opt) : String :=
  "# Option to " ++ o.description ++ "\n" ++
    "option( " ++ o.name ++ " \"" ++ o.description ++ "\" " ++ o.status ++ " )\n" ++ "\n"

/-- The conditional `config.h`-append block of one (finalized) option. -/
def config_h_block (o : Opt) : String :=
  "if( " ++ o.name ++ " )\n" ++
    "    message(\" " ++ o.name ++ " Enabled\")\n" ++
    "    file(APPEND $\x7bCONFIG_H\x7d \"/* " ++ remove_garbage o.define_description ++
      " */\\n\")\n" ++
    (if o.define.length ≥ 1 then
      "    file(APPEND $\x7bCONFIG_H\x7d \"#define " ++ o.define ++ " " ++
        replace_quotes (remove_garbage o.define_value) ++ "\\n\\n\")\n"
     else
      "    file(APPEND $\x7bCONFIG_H\x7d \"#define HAVE_" ++ o.name ++ " \\n\\n\")\n") ++
    String.join (o.extra_defines.map (fun extra =>
      let extra_value := remove_garbage extra
      "## !!! WARNING " ++ extra_value ++
        " Identified with some pattern matching magic.\n## Remove if not relevant!\")\n" ++
        "    file(APPEND $\x7bCONFIG_H\x7d \"#define " ++ extra_value ++ "\\n\\n\")\n")) ++
    "endif( " ++ o.name ++ " )\n"

/-- The unconditional block of still-unused defines. -/
def unused_defines_block (temp_defines : List (String × TempDefine)) : String :=
  String.join (temp_defines.map (fun kv =>
    if kv.2.used = false then
      "file(APPEND $\x7bCONFIG_H\x7d \"/* " ++ remove_garbage kv.2.description ++
        " */\\n\")\n" ++
        "file(APPEND $\x7bCONFIG_H\x7d \"#define " ++ kv.1 ++ " " ++
        replace_quotes (remove_garbage kv.2.value) ++ " \\n\\n \")\n"
    else ""))

/-- The option sort of `convert`: stable sort by `Option.name` ascending. -/
def optLe (a b : String × Opt) : Prop := strLe a.2.name b.2.name

instance : DecidableRel optLe := fun a b =>
  inferInstanceAs (Decidable (strLe a.2.name b.2.name))

/-- Python `sorted(options.items(), key=lambda x: x[1].get_name())`: Timsort
is stable, as is insertion sort, so the outputs coincide. -/
def sorted_options (options : List (String × Opt)) : List (String × Opt) :=
  List.insertionSort optLe options

/-- The top-level `CMakeLists.txt` text written by `convert` (the timestamp is
the `ts` parameter).  `finalize` is applied to each option in sorted order —
mutating the shared objects, hence also the registry. -/
def top_level_text (ts : String) (options : List (String × Opt))
    (temp_defines : List (String × TempDefine)) : String :=
  let sorted := (sorted_options options).map finKV
  "# Autogenerated by auto2cmake on " ++ ts ++ "\n\n# Options\n\n" ++
    "cmake_minimum_required(VERSION 2.8)\n" ++
    String.join (sorted.map (fun kv => option_block kv.2)) ++
    "# The lines below will generate the config.h based on the options above\n" ++
    "# The file will be in the $\x7bCMAKE_BINARY_DIR\x7d location\n" ++
    "set(CONFIG_H $\x7bCMAKE_BINARY_DIR\x7d/config.h)\n" ++
    "string(TIMESTAMP CURRENT_TIMESTAMP)\n" ++
    "file(WRITE $\x7bCONFIG_H\x7d \"/* WARNING: This file is auto-generated by CMake on " ++
    "$\x7bCURRENT_TIMESTAMP\x7d. DO NOT EDIT!!! */\\n\\n\")\n" ++
    String.join (sorted.map (fun kv => config_h_block kv.2)) ++
    "\n" ++
    "## !!! WARNING These are the defines that were defined regardless of an option.\n" ++
    "## !!! Or the script couldn't match them. Match them accordingly, delete them or keep them\n" ++
    unused_defines_block temp_defines ++
    "\n" ++
    "# Setting the include directory for the application to find config.h\n" ++
    "include_directories( $\x7bCMAKE_BINARY_DIR\x7d )" ++
    "\n" ++
    "# Since we have created a config.h add a global define for it\n" ++
    "add_definitions( \"-DHAVE_CONFIG_H\" )"

/-- Result of one run of the generation phase: the top-level text, the
per-library texts, and the state as left behind by the run. -/
structure GenResult where
  top : String
  lib_texts : List String
  state : ConvState
  deriving DecidableEq, Repr

/-- The generation phase of `convert` over an already-parsed model: emit the
top-level text (finalizing every option) and then every library's text via
`process_libraries`.  Mirrors the source's order: options are finalized
before `process_libraries` runs. -/
def generate_output (ts : String) (fs : List String) (st : ConvState) : GenResult :=
  let top := top_level_text ts st.options st.temp_defines
  let finalized := st.options.map finKV
  let processed := st.libraries.map (library_content finalized st.config_ac_variables fs)
  { top := top
    lib_texts := processed.map Prod.fst
    state := { st with options := finalized, libraries := processed.map Prod.snd } }

/-! ### End of `convert`: required directories without output units -/

/-- The directories receiving a fallback default `CMakeLists.txt`: the
required directories minus (one occurrence of) each directory that got its
own output unit, filtered by the exclude set.  Mirrors the removal loop and
the `final_list` comprehension of `convert`. -/
def fallback_directories (cmake_file_dirs : List String)
    (required_directories : List String) (exclude_directories : List String) :
    List String :=
  (cmake_file_dirs.foldl (fun req d => req.erase d) required_directories).filter
    (fun x => ¬ should_exclude exclude_directories x)

/-- Source `generate_default_cmake` as text: the glob results (`*.c*`, `*.h*`
files of the directory, full paths) are parameters. -/
def generate_default_cmake_text (req_dir : String) (c_files h_files : List String) :
    String :=
  let projname := (pySplitOnStr req_dir "/").getLastD "" ++ ")\n"
  let sources := "set (project " ++ projname ++ "set($\x7bproject\x7d_SOURCES\n" ++
    String.join (c_files.map (fun f =>
      "\t$\x7bCMAKE_CURRENT_SOURCE_DIR\x7d/" ++ (pySplitOnStr f "/").getLastD "" ++ "\n")) ++
    String.join (h_files.map (fun f =>
      "\t$\x7bCMAKE_CURRENT_SOURCE_DIR\x7d/" ++ (pySplitOnStr f "/").getLastD "" ++ "\n")) ++
    ")\n"
  "cmake_minimum_required(VERSION 2.8)\n" ++ sources ++
    "add_library($\x7bproject\x7d STATIC $\x7b$\x7bproject\x7d_SOURCES\x7d )"

/-! ### Statement helpers and concrete fixtures -/

/-- The description `process_argument` extracts from a line. -/
def arg_desc_of (line : String) : String :=
  arg_description (pyStrip (pyDrop line "AC_ARG_ENABLE(".length))

/-- The default status `process_argument` derives from a line. -/
def arg_status_of (line : String) : String :=
  if pyIn "=yes" (pyStrip (pyDrop line "AC_ARG_ENABLE(".length)) then "ON" else "OFF"

/-- All `Library` fields except `condition` agree (the frame of generation). -/
def libFrameRel (a b : Library) : Prop :=
  b.name = a.name ∧ b.dependant = a.dependant ∧ b.filelist = a.filelist ∧
  b.link_with_libs = a.link_with_libs ∧ b.compiler_flags = a.compiler_flags ∧
  b.linker_flags = a.linker_flags ∧ b.conditional_appends = a.conditional_appends ∧
  b.just_variables = a.just_variables ∧ b.target_type = a.target_type ∧
  b.ttype = a.ttype ∧ b.type = a.type ∧ b.referred_name = a.referred_name ∧
  b.canonic_name = a.canonic_name ∧ b.directory = a.directory

/-- Key and all `Opt` fields except description, status and
define-description agree (the frame of option finalization). -/
def optFrameRel (a b : String × Opt) : Prop :=
  b.1 = a.1 ∧ b.2.name = a.2.name ∧ b.2.define = a.2.define ∧
  b.2.define_value = a.2.define_value ∧ b.2.extra_defines = a.2.extra_defines

/-- Fixture: an option `FOO` bound (by a conditional) to the symbol `HAVE_X`. -/
def fx_option_foo : Opt := Opt.make "foo" "build foo stuff" "OFF" "HAVE_X" "" ""

/-- Fixture: a conversion state holding only the option `foo ↦ FOO/HAVE_X`. -/
def fx_state : ConvState :=
  { libraries := [], options := [("foo", fx_option_foo)], temp_defines := []
    config_ac_variables := [], extra_content := [], required_directories := [] }

/-- Fixture: a makefile declaring `libx.a` with its sources guarded by
`if HAVE_X`. -/
def fx_makefile : List String :=
  ["noinst_LIBRARIES = libx.a", "if HAVE_X", "libx_a_SOURCES = a.c", "endif"]

/-- Fixture: the state after parsing `fx_makefile` in directory `src`. -/
def fx_parsed : ConvState := process_makefile_am [] "src" fx_makefile fx_state

/-- Fixture: the filesystem containing exactly `src/a.c`. -/
def fx_fs : List String := ["src/a.c"]

/-- Fixture: an empty conversion state. -/
def emptyConvState : ConvState :=
  { libraries := [], options := [], temp_defines := [], config_ac_variables := []
    extra_content := [], required_directories := [] }

/-- Fixture: a state with one unconditioned library and one option. -/
def fx_state_nocond : ConvState :=
  { libraries := [Library.init "libx.a" "src"], options := [("foo", fx_option_foo)]
    temp_defines := [], config_ac_variables := [], extra_content := []
    required_directories := [] }

/-! ## Theorems

Infrastructure lemmas first: association-list lookups, infix facts, and the
behaviour of the two configure-macro processors on the registry. -/

theorem lookup_cons {α : Type} (k hk : String) (hv : α) (tl : List (String × α)) :
    List.lookup k ((hk, hv) :: tl) = if k = hk then some hv else List.lookup k tl := by
  by_cases h : k = hk
  · subst h; simp [List.lookup]
  · have hb : (k == hk) = false := by simp [h]
    simp only [List.lookup, hb]
    rw [if_neg h]

theorem lookup_aupdate {α : Type} (k k' : String) (f : α → α) (l : List (String × α)) :
    List.lookup k (aupdate k' f l) =
      if k = k' then (List.lookup k l).map f else List.lookup k l := by
  induction l with
  | nil => simp [aupdate]
  | cons hd tl ih =>
    obtain ⟨hk, hv⟩ := hd
    by_cases h1 : hk = k'
    · subst h1
      by_cases h2 : k = hk
      · subst h2; simp [aupdate, lookup_cons]
      · simp [aupdate, lookup_cons, h2, Ne.symm h2, ih]
    · by_cases h2 : k = hk
      · subst h2
        simp [aupdate, lookup_cons, h1, Ne.symm h1]
      · simp [aupdate, lookup_cons, h1, h2, Ne.symm h2, ih]

theorem lookup_append_of_some {α : Type} {k : String} {l l' : List (String × α)}
    {v : α} (h : List.lookup k l = some v) :
    List.lookup k (l ++ l') = some v := by
  induction l with
  | nil => simp [List.lookup] at h
  | cons hd tl ih =>
    obtain ⟨hk, hv⟩ := hd
    by_cases h2 : k = hk
    · subst h2
      rw [lookup_cons, if_pos rfl] at h
      rw [List.cons_append, lookup_cons, if_pos rfl]; exact h
    · rw [lookup_cons, if_neg h2] at h
      rw [List.cons_append, lookup_cons, if_neg h2]; exact ih h

theorem lookup_append_of_none {α : Type} {k : String} {l l' : List (String × α)}
    (h : List.lookup k l = none) :
    List.lookup k (l ++ l') = List.lookup k l' := by
  induction l with
  | nil => simp
  | cons hd tl ih =>
    obtain ⟨hk, hv⟩ := hd
    by_cases h2 : k = hk
    · subst h2; rw [lookup_cons, if_pos rfl] at h; exact absurd h (by simp)
    · rw [lookup_cons, if_neg h2] at h
      rw [List.cons_append, lookup_cons, if_neg h2]; exact ih h

theorem lookup_aset_self {α : Type} (k : String) (v : α) (l : List (String × α)) :
    List.lookup k (aset k v l) = some v := by
  induction l with
  | nil => simp [aset, lookup_cons]
  | cons hd tl ih =>
    obtain ⟨hk, hv⟩ := hd
    by_cases h2 : hk = k
    · subst h2; simp [aset, lookup_cons]
    · simp [aset, lookup_cons, h2, Ne.symm h2, ih]

theorem process_argument_lookup (line : String) (options : List (String × Opt)) :
    ∃ o, List.lookup (arg_key line) (process_argument line options) = some o ∧
      o.description = arg_desc_of line ∧ o.status = arg_status_of line ∧
      o.define = ((List.lookup (arg_key line) options).map Opt.define).getD "" := by
  cases h : List.lookup (arg_key line) options with
  | none =>
    refine ⟨Opt.make (arg_key line) (arg_desc_of line) (arg_status_of line) "" "" "",
      ?_, rfl, rfl, rfl⟩
    simp only [process_argument, h]
    rw [lookup_append_of_none h, lookup_cons, if_pos rfl]
    rfl
  | some o0 =>
    refine ⟨{ o0 with
        name := arg_key line
        description := arg_desc_of line
        status := arg_status_of line }, ?_, rfl, rfl, rfl⟩
    simp only [process_argument, h]
    rw [lookup_aupdate, if_pos rfl, h]
    rfl

theorem process_conditional_lookup (line : String) (options : List (String × Opt)) :
    ∃ o, List.lookup (cond_key line) (process_conditional line options) = some o ∧
      o.define = cond_define line ∧
      ((List.lookup (cond_key line) options = none ∧ o.description = "" ∧ o.status = "") ∨
       (∃ o0, List.lookup (cond_key line) options = some o0 ∧
          o.description = o0.description ∧ o.status = o0.status)) := by
  cases h : List.lookup (cond_key line) options with
  | none =>
    refine ⟨Opt.make (cond_key line) "" "" (cond_define line) "" "",
      ?_, rfl, Or.inl ⟨rfl, rfl, rfl⟩⟩
    simp only [process_conditional, h]
    rw [lookup_append_of_none h, lookup_cons, if_pos rfl]
  | some o0 =>
    refine ⟨{ o0 with define := cond_define line }, ?_, rfl,
      Or.inr ⟨o0, rfl, rfl, rfl⟩⟩
    simp only [process_conditional, h]
    rw [lookup_aupdate, if_pos rfl, h]
    rfl

theorem infix_cons_of_ne {d c : Char} {n l : List Char} (h : d ≠ c) :
    ((d :: n) <:+: c :: l) ↔ ((d :: n) <:+: l) := by
  rw [List.infix_cons_iff]
  constructor
  · rintro (hp | hi)
    · obtain ⟨t, ht⟩ := hp
      rw [List.cons_append] at ht
      injection ht with h1 _
      exact absurd h1 h
    · exact hi
  · exact Or.inr

theorem infix_dropWhile_ws (d : Char) (n : List Char) (hd : d.isWhitespace = false)
    (l : List Char) :
    ((d :: n) <:+: l.dropWhile Char.isWhitespace) ↔ ((d :: n) <:+: l) := by
  induction l with
  | nil => simp
  | cons c t ih =>
    by_cases hc : c.isWhitespace
    · rw [List.dropWhile_cons, if_pos hc, ih]
      have hdc : d ≠ c := fun he => by rw [he] at hd; rw [hd] at hc; exact Bool.noConfusion hc
      exact (infix_cons_of_ne hdc).symm
    · rw [List.dropWhile_cons, if_neg hc]

theorem rev_infix_rev_iff {α : Type} (x y : List α) :
    (x.reverse <:+: y.reverse) ↔ (x <:+: y) := by
  constructor
  · rintro ⟨s, t, h⟩
    refine ⟨t.reverse, s.reverse, ?_⟩
    have h2 := congrArg List.reverse h
    simpa [List.reverse_append, List.append_assoc] using h2
  · rintro ⟨s, t, h⟩
    refine ⟨t.reverse, s.reverse, ?_⟩
    rw [← h]
    simp [List.reverse_append, List.append_assoc]

theorem infix_stripChars_iff (d : Char) (n : List Char) (e : Char) (m : List Char)
    (hd : d.isWhitespace = false) (he : e.isWhitespace = false)
    (hrev : (d :: n).reverse = e :: m) (l : List Char) :
    ((d :: n) <:+: stripChars l) ↔ ((d :: n) <:+: l) := by
  have h1 := rev_infix_rev_iff ((d :: n).reverse)
    ((l.dropWhile Char.isWhitespace).reverse.dropWhile Char.isWhitespace)
  rw [List.reverse_reverse] at h1
  have h2 := infix_dropWhile_ws e m he ((l.dropWhile Char.isWhitespace).reverse)
  rw [← hrev] at h2
  have h3 := rev_infix_rev_iff (d :: n) (l.dropWhile Char.isWhitespace)
  have h4 := infix_dropWhile_ws d n hd l
  exact h1.trans (h2.trans (h3.trans h4))

theorem yes_infix_concat (pre : List Char) (h : '=' ∉ pre) (l : List Char) :
    ("=yes".data <:+: pre ++ l) ↔ ("=yes".data <:+: l) := by
  induction pre with
  | nil => simp
  | cons c p ih =>
    have hmem : '=' ∉ p := fun hm => h (List.mem_cons_of_mem _ hm)
    have hc : '=' ≠ c := fun he => h (by rw [he]; exact List.mem_cons_self _ _)
    rw [List.cons_append]
    have hdata : "=yes".data = '=' :: "yes".data := rfl
    have step : ("=yes".data <:+: c :: (p ++ l)) ↔ ("=yes".data <:+: p ++ l) := by
      rw [hdata]; exact infix_cons_of_ne hc
    exact step.trans (ih hmem)

theorem pyIn_yes_strip (s : String) : pyIn "=yes" (pyStrip s) = pyIn "=yes" s := by
  unfold pyIn pyStrip
  apply decide_eq_decide.mpr
  show ("=yes".data <:+: stripChars s.data) ↔ ("=yes".data <:+: s.data)
  have hdata : "=yes".data = '=' :: "yes".data := rfl
  rw [hdata]
  exact infix_stripChars_iff '=' "yes".data 's' "ey=".data (by decide) (by decide)
    (by decide) s.data

theorem pyIn_yes_line (rest : String) :
    arg_status_of ("AC_ARG_ENABLE(" ++ rest) =
      (if pyIn "=yes" ("AC_ARG_ENABLE(" ++ rest) then "ON" else "OFF") := by
  unfold arg_status_of
  have hb : pyIn "=yes" (pyStrip (pyDrop ("AC_ARG_ENABLE(" ++ rest)
      "AC_ARG_ENABLE(".length)) = pyIn "=yes" ("AC_ARG_ENABLE(" ++ rest) := by
    rw [pyIn_yes_strip]
    unfold pyIn pyDrop
    apply decide_eq_decide.mpr
    show ("=yes".data <:+: ("AC_ARG_ENABLE(" ++ rest).data.drop "AC_ARG_ENABLE(".length) ↔
      ("=yes".data <:+: ("AC_ARG_ENABLE(" ++ rest).data)
    rw [String.data_append]
    have hlen : "AC_ARG_ENABLE(".length = ("AC_ARG_ENABLE(".data).length := rfl
    rw [hlen, List.drop_left]
    exact (yes_infix_concat "AC_ARG_ENABLE(".data (by decide) rest.data).symm
  rw [hb]

/-- C9 (confirmed): for every argument-declaration line, the created or
updated Option's default status is "ON" if and only if the raw macro text
contains the substring `=yes`; otherwise it is "OFF". -/
theorem c9_argument_status (rest : String) (options : List (String × Opt)) :
    ∃ o, List.lookup (arg_key ("AC_ARG_ENABLE(" ++ rest))
        (process_argument ("AC_ARG_ENABLE(" ++ rest) options) = some o ∧
      o.status = (if pyIn "=yes" ("AC_ARG_ENABLE(" ++ rest) then "ON" else "OFF") := by
  obtain ⟨o, hlk, _, hst, _⟩ := process_argument_lookup ("AC_ARG_ENABLE(" ++ rest) options
  exact ⟨o, hlk, by rw [hst, pyIn_yes_line]⟩

theorem lookup_process_conditional_ne {k : String} (line : String)
    (options : List (String × Opt)) (hk : k ≠ cond_key line) :
    List.lookup k (process_conditional line options) = List.lookup k options := by
  cases h : List.lookup (cond_key line) options with
  | none =>
    simp only [process_conditional, h]
    cases h2 : List.lookup k options with
    | none => rw [lookup_append_of_none h2, lookup_cons, if_neg hk]; rfl
    | some v => rw [lookup_append_of_some h2]
  | some o0 =>
    simp only [process_conditional, h]
    rw [lookup_aupdate, if_neg hk]

theorem lookup_process_argument_ne {k : String} (line : String)
    (options : List (String × Opt)) (hk : k ≠ arg_key line) :
    List.lookup k (process_argument line options) = List.lookup k options := by
  cases h : List.lookup (arg_key line) options with
  | none =>
    simp only [process_argument, h]
    cases h2 : List.lookup k options with
    | none => rw [lookup_append_of_none h2, lookup_cons, if_neg hk]; rfl
    | some v => rw [lookup_append_of_some h2]
  | some o0 =>
    simp only [process_argument, h]
    rw [lookup_aupdate, if_neg hk]

theorem arg_status_ne_empty (line : String) : arg_status_of line ≠ "" := by
  unfold arg_status_of
  split <;> decide

/-- C2 (counterexample): the claim says a later sighting never overwrites an
already-populated description with an empty value.  A second
`AC_ARG_ENABLE(foo, ...)` with no bracketed description overwrites the
populated description of `foo` with the empty string. -/
theorem c2_counterexample :
    ((List.lookup "foo" (process_argument
        "AC_ARG_ENABLE(foo,[  --enable-foo   build foo stuff])" [])).map
        Opt.description = some "build foo stuff") ∧
    ((List.lookup "foo" (process_argument "AC_ARG_ENABLE(foo,no brackets here)"
        (process_argument "AC_ARG_ENABLE(foo,[  --enable-foo   build foo stuff])" []))).map
        Opt.description = some "") := by
  decide

/-- C2 (amended): a conditional-binding re-sighting only sets the bound
symbol, leaving description and status intact; an argument re-sighting leaves
the bound symbol intact but overwrites description and status
unconditionally (possibly with an empty description).  An Option seen in both
an argument declaration carrying a bracketed description and a conditional
binding carrying a symbol ends, in either order, with non-empty description,
status and bound symbol. -/
theorem c2_merge_behaviour :
    (∀ line options k o, List.lookup k options = some o →
       ∃ o', List.lookup k (process_conditional line options) = some o' ∧
         o'.description = o.description ∧ o'.status = o.status) ∧
    (∀ line options k o, List.lookup k options = some o →
       ∃ o', List.lookup k (process_argument line options) = some o' ∧
         o'.define = o.define) ∧
    (∀ aline cline options, arg_key aline = cond_key cline →
       arg_desc_of aline ≠ "" → cond_define cline ≠ "" →
       (∃ o, List.lookup (arg_key aline)
            (process_conditional cline (process_argument aline options)) = some o ∧
          o.description ≠ "" ∧ o.status ≠ "" ∧ o.define ≠ "") ∧
       (∃ o, List.lookup (arg_key aline)
            (process_argument aline (process_conditional cline options)) = some o ∧
          o.description ≠ "" ∧ o.status ≠ "" ∧ o.define ≠ "")) := by
  refine ⟨?_, ?_, ?_⟩
  · intro line options k o h
    by_cases hk : k = cond_key line
    · subst hk
      obtain ⟨o', hlk, _, hrest⟩ := process_conditional_lookup line options
      rcases hrest with ⟨hnone, _, _⟩ | ⟨o0, h0, hd, hs⟩
      · rw [h] at hnone; exact absurd hnone (by simp)
      · rw [h] at h0; injection h0 with h0; subst h0
        exact ⟨o', hlk, hd, hs⟩
    · exact ⟨o, by rw [lookup_process_conditional_ne line options hk]; exact h, rfl, rfl⟩
  · intro line options k o h
    by_cases hk : k = arg_key line
    · subst hk
      obtain ⟨o', hlk, _, _, hdef⟩ := process_argument_lookup line options
      rw [h] at hdef
      exact ⟨o', hlk, hdef⟩
    · exact ⟨o, by rw [lookup_process_argument_ne line options hk]; exact h, rfl⟩
  · intro aline cline options hkey hdesc hcdef
    constructor
    · obtain ⟨o1, h1, hd1, hs1, _⟩ := process_argument_lookup aline options
      obtain ⟨o2, h2, hdef2, hrest⟩ :=
        process_conditional_lookup cline (process_argument aline options)
      rw [← hkey] at h2 hrest
      refine ⟨o2, h2, ?_, ?_, by rw [hdef2]; exact hcdef⟩
      · rcases hrest with ⟨hnone, _, _⟩ | ⟨o0, h0, hd, _⟩
        · rw [h1] at hnone; exact absurd hnone (by simp)
        · rw [h1] at h0; injection h0 with h0; subst h0
          rw [hd, hd1]; exact hdesc
      · rcases hrest with ⟨hnone, _, _⟩ | ⟨o0, h0, _, hs⟩
        · rw [h1] at hnone; exact absurd hnone (by simp)
        · rw [h1] at h0; injection h0 with h0; subst h0
          rw [hs, hs1]; exact arg_status_ne_empty aline
    · obtain ⟨o1, h1, hdef1, _⟩ := process_conditional_lookup cline options
      obtain ⟨o2, h2, hd2, hs2, hdef2⟩ :=
        process_argument_lookup aline (process_conditional cline options)
      refine ⟨o2, h2, by rw [hd2]; exact hdesc, by rw [hs2]; exact arg_status_ne_empty aline, ?_⟩
      rw [hkey] at hdef2
      rw [h1] at hdef2
      rw [hdef2]
      show o1.define ≠ ""
      rw [hdef1]; exact hcdef

/-- Witness for the amended C2 at concrete argument and conditional lines. -/
theorem c2_merge_behaviour_witness :
    (arg_key "AC_ARG_ENABLE(foo,[  --enable-foo   build foo stuff])" =
       cond_key "AM_CONDITIONAL(HAVE_X, test \"$foo\" = yes)") ∧
    arg_desc_of "AC_ARG_ENABLE(foo,[  --enable-foo   build foo stuff])" ≠ "" ∧
    cond_define "AM_CONDITIONAL(HAVE_X, test \"$foo\" = yes)" ≠ "" ∧
    ((∃ o, List.lookup (arg_key "AC_ARG_ENABLE(foo,[  --enable-foo   build foo stuff])")
        (process_conditional "AM_CONDITIONAL(HAVE_X, test \"$foo\" = yes)"
          (process_argument "AC_ARG_ENABLE(foo,[  --enable-foo   build foo stuff])" [])) =
        some o ∧ o.description ≠ "" ∧ o.status ≠ "" ∧ o.define ≠ "") ∧
     (∃ o, List.lookup (arg_key "AC_ARG_ENABLE(foo,[  --enable-foo   build foo stuff])")
        (process_argument "AC_ARG_ENABLE(foo,[  --enable-foo   build foo stuff])"
          (process_conditional "AM_CONDITIONAL(HAVE_X, test \"$foo\" = yes)" [])) =
        some o ∧ o.description ≠ "" ∧ o.status ≠ "" ∧ o.define ≠ "")) :=
  ⟨by decide, by decide, by decide,
   c2_merge_behaviour.2.2 "AC_ARG_ENABLE(foo,[  --enable-foo   build foo stuff])"
     "AM_CONDITIONAL(HAVE_X, test \"$foo\" = yes)" [] (by decide) (by decide) (by decide)⟩

theorem foldl_append_data (l : List String) (a : String) :
    (l.foldl (fun r s => r ++ s) a).data = a.data ++ (l.map String.data).flatten := by
  induction l generalizing a with
  | nil => simp
  | cons x t ih =>
    simp only [List.foldl_cons, List.map_cons, List.flatten_cons]
    rw [ih, String.data_append, List.append_assoc]

theorem join_data (l : List String) :
    (String.join l).data = (l.map String.data).flatten := by
  show (l.foldl (fun r s => r ++ s) "").data = _
  rw [foldl_append_data]
  rfl

theorem infix_append_of_left {α : Type} {x a : List α} (b : List α) (h : x <:+: a) :
    x <:+: a ++ b := by
  obtain ⟨s, u, hsu⟩ := h
  exact ⟨s, u ++ b, by rw [← hsu]; simp [List.append_assoc]⟩

theorem infix_append_of_right {α : Type} {x b : List α} (a : List α) (h : x <:+: b) :
    x <:+: a ++ b := by
  obtain ⟨s, u, hsu⟩ := h
  exact ⟨a ++ s, u, by rw [← hsu]; simp [List.append_assoc]⟩

theorem infix_flatten_of_mem {α : Type} {x : List α} :
    {L : List (List α)} → x ∈ L → x <:+: L.flatten
  | [], h => absurd h (List.not_mem_nil x)
  | y :: t, h => by
    rw [List.flatten_cons]
    rcases List.mem_cons.mp h with h' | h'
    · subst h'; exact infix_append_of_left _ ⟨[], [], by simp⟩
    · exact infix_append_of_right _ (infix_flatten_of_mem h')

theorem join_infix_of_mem {x : String} {parts : List String} (h : x ∈ parts) :
    x.data <:+: (String.join parts).data := by
  rw [join_data]
  exact infix_flatten_of_mem (List.mem_map_of_mem String.data h)

/-- C7 (confirmed): every file of a target's file list is emitted — as a
normal source line when it exists in the target's directory, and as a
commented-out "File not found. Fix manually" line plus a printed diagnostic
when it does not; the function is total, so generation continues either way. -/
theorem c7_missing_file_handling (elements : List String) (source_directory : String)
    (spacecount : Nat) (fs : List String) (file : String) (hmem : file ∈ elements) :
    ((source_directory ++ "/" ++ file) ∈ fs →
       ("\n" ++ spacesOf spacecount ++ "$\x7bCMAKE_CURRENT_SOURCE_DIR\x7d/" ++ file).data <:+:
         (filelist_to_string elements source_directory spacecount fs).1.data) ∧
    ((source_directory ++ "/" ++ file) ∉ fs →
       ("\n#" ++ spacesOf spacecount ++ "$\x7bCMAKE_CURRENT_SOURCE_DIR\x7d/" ++ file ++
          " # File not found. Fix manually").data <:+:
         (filelist_to_string elements source_directory spacecount fs).1.data ∧
       missing_file_warning source_directory file ∈
         (filelist_to_string elements source_directory spacecount fs).2) := by
  have hmem' : file ∈ pySorted elements :=
    (List.perm_insertionSort strLe elements).mem_iff.mpr hmem
  have hmap := List.mem_map_of_mem (filelist_entry fs source_directory spacecount) hmem'
  constructor
  · intro hfs
    have he : filelist_entry fs source_directory spacecount file =
        "\n" ++ spacesOf spacecount ++ "$\x7bCMAKE_CURRENT_SOURCE_DIR\x7d/" ++ file := by
      unfold filelist_entry; rw [if_pos hfs]
    rw [← he]
    exact join_infix_of_mem hmap
  · intro hfs
    constructor
    · have he : filelist_entry fs source_directory spacecount file =
          "\n#" ++ spacesOf spacecount ++ "$\x7bCMAKE_CURRENT_SOURCE_DIR\x7d/" ++ file ++
            " # File not found. Fix manually" := by
        unfold filelist_entry; rw [if_neg hfs]
      rw [← he]
      exact join_infix_of_mem hmap
    · apply List.mem_map_of_mem (missing_file_warning source_directory)
      exact List.mem_filter.mpr ⟨hmem', by simp [hfs]⟩

/-- Witness for C7 at a concrete directory with `a.c` present and `b.c`
absent. -/
theorem c7_missing_file_handling_witness :
    ("b.c" ∈ ["a.c", "b.c"]) ∧
    ((("src" ++ "/" ++ "b.c") ∈ ["src/a.c"] →
       ("\n" ++ spacesOf 4 ++ "$\x7bCMAKE_CURRENT_SOURCE_DIR\x7d/" ++ "b.c").data <:+:
         (filelist_to_string ["a.c", "b.c"] "src" 4 ["src/a.c"]).1.data) ∧
     (("src" ++ "/" ++ "b.c") ∉ ["src/a.c"] →
       ("\n#" ++ spacesOf 4 ++ "$\x7bCMAKE_CURRENT_SOURCE_DIR\x7d/" ++ "b.c" ++
          " # File not found. Fix manually").data <:+:
         (filelist_to_string ["a.c", "b.c"] "src" 4 ["src/a.c"]).1.data ∧
       missing_file_warning "src" "b.c" ∈
         (filelist_to_string ["a.c", "b.c"] "src" 4 ["src/a.c"]).2)) :=
  ⟨by decide, c7_missing_file_handling ["a.c", "b.c"] "src" 4 ["src/a.c"] "b.c" (by decide)⟩

/-- C10 (confirmed): the rendered source list is permutation-invariant — file
names are emitted in ascending sorted order, not declaration order, so two
permuted file lists produce byte-identical output (text and diagnostics). -/
theorem c10_filelist_perm_invariant (source_directory : String) (spacecount : Nat)
    (fs : List String) (l₁ l₂ : List String) (h : l₁.Perm l₂) :
    filelist_to_string l₁ source_directory spacecount fs =
      filelist_to_string l₂ source_directory spacecount fs := by
  have hs : pySorted l₁ = pySorted l₂ := by
    apply List.eq_of_perm_of_sorted (r := strLe)
    · exact (List.perm_insertionSort strLe l₁).trans
        (h.trans (List.perm_insertionSort strLe l₂).symm)
    · exact List.sorted_insertionSort strLe l₁
    · exact List.sorted_insertionSort strLe l₂
  unfold filelist_to_string
  rw [hs]

/-- Witness for C10 on two permuted concrete file lists. -/
theorem c10_filelist_perm_invariant_witness :
    (List.Perm ["b.c", "a.c", "c.c"] ["c.c", "a.c", "b.c"]) ∧
    filelist_to_string ["b.c", "a.c", "c.c"] "src" 4 ["src/a.c"] =
      filelist_to_string ["c.c", "a.c", "b.c"] "src" 4 ["src/a.c"] :=
  ⟨by decide, c10_filelist_perm_invariant "src" 4 ["src/a.c"] _ _ (by decide)⟩

/-- C5 (counterexample): the executable test inspects the whole declaration
line, not the declaring variable — a `_LIBRARIES` declaration whose target
token itself contains `_PROGRAMS` is classified as an executable even though
its raw name ends in `.a`, falsifying "every target declared via `_LIBRARIES`
whose raw name ends in `.a` is a static library". -/
theorem c5_counterexample :
    (makefile_pass1_line [] "d" [] "noinst_LIBRARIES = foo_PROGRAMS.a").map
        Library.target_type = [TargetType.PROGRAM] ∧
    pyEndsWith "foo_PROGRAMS.a" ".a" = true ∧
    TargetType.PROGRAM ≠ TargetType.LIBRARY := by
  decide

/-- C5 (amended): every target on a declaration line containing `_PROGRAMS`
(in particular, one whose declaring variable contains it) is an executable;
a target on a line without `_PROGRAMS` is a library whose static/dynamic kind
follows the raw name: `$`-referencing names are always static, otherwise a
`.a` suffix means static and anything else dynamic. -/
theorem c5_target_kind (line library_name directory : String) :
    (pyIn "_PROGRAMS" line = true →
       (target_of_declaration line library_name directory).target_type =
         TargetType.PROGRAM) ∧
    (pyIn "_PROGRAMS" line = false →
       (target_of_declaration line library_name directory).target_type =
         TargetType.LIBRARY ∧
       (pyIn "$" library_name = false →
          (target_of_declaration line library_name directory).type =
            (if pyEndsWith library_name ".a" then "STATIC" else "DYNAMIC")) ∧
       (pyIn "$" library_name = true →
          (target_of_declaration line library_name directory).type = "STATIC")) := by
  refine ⟨fun h => ?_, fun h => ⟨?_, fun hd => ?_, fun hd => ?_⟩⟩
  · simp [target_of_declaration, h]
  · by_cases hd : pyIn "$" library_name = true <;>
      by_cases ha : pyEndsWith library_name ".a" = true <;>
      simp [target_of_declaration, Library.init, h, hd, ha]
  · by_cases ha : pyEndsWith library_name ".a" = true <;>
      simp [target_of_declaration, Library.init, h, hd, ha]
  · simp [target_of_declaration, Library.init, h, hd]

/-- Witness for the amended C5 on a plain `noinst_LIBRARIES = libx.a` line. -/
theorem c5_target_kind_witness :
    pyIn "_PROGRAMS" "noinst_LIBRARIES = libx.a" = false ∧
    pyIn "$" "libx.a" = false ∧
    (target_of_declaration "noinst_LIBRARIES = libx.a" "libx.a" "d").target_type =
      TargetType.LIBRARY ∧
    (target_of_declaration "noinst_LIBRARIES = libx.a" "libx.a" "d").type =
      (if pyEndsWith "libx.a" ".a" then "STATIC" else "DYNAMIC") :=
  ⟨by decide, by decide,
   ((c5_target_kind "noinst_LIBRARIES = libx.a" "libx.a" "d").2 (by decide)).1,
   ((c5_target_kind "noinst_LIBRARIES = libx.a" "libx.a" "d").2 (by decide)).2.1 (by decide)⟩

theorem fuzzy_step_opts_mem (sim : String → String → Bool)
    (acc : List (String × TempDefine) × List (String × Opt)) (kv : String × TempDefine)
    {k x : String} {o : Opt} (h : (k, o) ∈ acc.2) (hx : x ∈ o.extra_defines) :
    ∃ o', (k, o') ∈ (fuzzy_step sim acc kv).2 ∧ x ∈ o'.extra_defines := by
  unfold fuzzy_step
  by_cases hu : kv.2.used = false
  · simp only [hu, if_true]
    by_cases hm : fuzzy_matches sim kv.1 k = true
    · refine ⟨{ o with extra_defines := o.extra_defines ++ [kv.1] }, ?_,
        List.mem_append_left _ hx⟩
      have := List.mem_map_of_mem
        (fun ko : String × Opt =>
          if fuzzy_matches sim kv.1 ko.1 then
            (ko.1, { ko.2 with extra_defines := ko.2.extra_defines ++ [kv.1] })
          else ko) h
      simpa [hm] using this
    · refine ⟨o, ?_, hx⟩
      have := List.mem_map_of_mem
        (fun ko : String × Opt =>
          if fuzzy_matches sim kv.1 ko.1 then
            (ko.1, { ko.2 with extra_defines := ko.2.extra_defines ++ [kv.1] })
          else ko) h
      simpa [hm] using this
  · simp only [hu, if_false]
    exact ⟨o, h, hx⟩

theorem fuzzy_step_opts_key (sim : String → String → Bool)
    (acc : List (String × TempDefine) × List (String × Opt)) (kv : String × TempDefine)
    {k : String} (h : ∃ o, (k, o) ∈ acc.2) : ∃ o, (k, o) ∈ (fuzzy_step sim acc kv).2 := by
  obtain ⟨o, ho⟩ := h
  unfold fuzzy_step
  by_cases hu : kv.2.used = false
  · simp only [hu, if_true]
    by_cases hm : fuzzy_matches sim kv.1 k = true
    · refine ⟨{ o with extra_defines := o.extra_defines ++ [kv.1] }, ?_⟩
      have := List.mem_map_of_mem
        (fun ko : String × Opt =>
          if fuzzy_matches sim kv.1 ko.1 then
            (ko.1, { ko.2 with extra_defines := ko.2.extra_defines ++ [kv.1] })
          else ko) ho
      simpa [hm] using this
    · refine ⟨o, ?_⟩
      have := List.mem_map_of_mem
        (fun ko : String × Opt =>
          if fuzzy_matches sim kv.1 ko.1 then
            (ko.1, { ko.2 with extra_defines := ko.2.extra_defines ++ [kv.1] })
          else ko) ho
      simpa [hm] using this
  · simp only [hu, if_false]
    exact ⟨o, ho⟩

theorem fuzzy_fold_tds_mem (sim : String → String → Bool)
    (l : List (String × TempDefine)) {e : String × TempDefine} :
    ∀ acc : List (String × TempDefine) × List (String × Opt), e ∈ acc.1 →
      e ∈ (l.foldl (fuzzy_step sim) acc).1 := by
  induction l with
  | nil => intro acc h; exact h
  | cons hd t ih =>
    intro acc h
    rw [List.foldl_cons]
    apply ih
    unfold fuzzy_step
    by_cases hu : hd.2.used = false
    · simp only [hu, if_true]; exact List.mem_append_left _ h
    · simp only [hu, if_false]; exact List.mem_append_left _ h

theorem fuzzy_fold_opts_mem (sim : String → String → Bool)
    (l : List (String × TempDefine)) {k x : String} :
    ∀ acc : List (String × TempDefine) × List (String × Opt),
      (∃ o, (k, o) ∈ acc.2 ∧ x ∈ o.extra_defines) →
      ∃ o, (k, o) ∈ (l.foldl (fuzzy_step sim) acc).2 ∧ x ∈ o.extra_defines := by
  induction l with
  | nil => intro acc h; exact h
  | cons hd t ih =>
    intro acc h
    obtain ⟨o, ho, hx⟩ := h
    rw [List.foldl_cons]
    exact ih _ (fuzzy_step_opts_mem sim acc hd ho hx)

theorem fuzzy_fold_main (sim : String → String → Bool)
    (l : List (String × TempDefine)) :
    ∀ (acc : List (String × TempDefine) × List (String × Opt))
      (tdn : String) (td : TempDefine) (k : String),
      (tdn, td) ∈ l → td.used = false → (∃ o, (k, o) ∈ acc.2) →
      fuzzy_matches sim tdn k = true →
      (∃ td', (tdn, td') ∈ (l.foldl (fuzzy_step sim) acc).1 ∧ td'.used = true) ∧
      (∃ o', (k, o') ∈ (l.foldl (fuzzy_step sim) acc).2 ∧ tdn ∈ o'.extra_defines) := by
  induction l with
  | nil => intro acc tdn td k h1; cases h1
  | cons hd t ih =>
    intro acc tdn td k h1 h2 h3 h4
    rcases List.mem_cons.mp h1 with heq | hmem
    · obtain ⟨o, ho⟩ := h3
      have hany : acc.2.any (fun ko => fuzzy_matches sim tdn ko.1) = true :=
        List.any_eq_true.mpr ⟨(k, o), ho, h4⟩
      rw [List.foldl_cons, ← heq]
      constructor
      · refine ⟨{ td with used := true }, ?_, rfl⟩
        apply fuzzy_fold_tds_mem
        unfold fuzzy_step
        simp only [h2, if_true]
        apply List.mem_append_right
        simp only [hany, List.mem_singleton]
      · apply fuzzy_fold_opts_mem
        refine ⟨{ o with extra_defines := o.extra_defines ++ [tdn] }, ?_,
          List.mem_append_right _ (List.mem_singleton.mpr rfl)⟩
        unfold fuzzy_step
        simp only [h2, if_true]
        have := List.mem_map_of_mem
          (fun ko : String × Opt =>
            if fuzzy_matches sim tdn ko.1 then
              (ko.1, { ko.2 with extra_defines := ko.2.extra_defines ++ [tdn] })
            else ko) ho
        simpa [h4] using this
    · rw [List.foldl_cons]
      exact ih _ tdn td k hmem h2 (fuzzy_step_opts_key sim acc hd h3) h4

/-- C6 (confirmed): every Define still unused when the fuzzy pass runs is
attached as an extra define to every Option whose (case-insensitively
uppercased) key is similar above the threshold, contains the define name, or
is contained in it — and the define's used flag is set. -/
theorem c6_fuzzy_attach (sim : String → String → Bool)
    (tds : List (String × TempDefine)) (opts : List (String × Opt))
    (tdn : String) (td : TempDefine) (k : String) (o : Opt)
    (h1 : (tdn, td) ∈ tds) (h2 : td.used = false) (h3 : (k, o) ∈ opts)
    (h4 : sim (pyUpper tdn) (pyUpper k) = true ∨ pyIn (pyUpper tdn) (pyUpper k) = true ∨
      pyIn (pyUpper k) (pyUpper tdn) = true) :
    (∃ td', (tdn, td') ∈ (fuzzy_match_pass sim tds opts).1 ∧ td'.used = true) ∧
    (∃ o', (k, o') ∈ (fuzzy_match_pass sim tds opts).2 ∧ tdn ∈ o'.extra_defines) := by
  have hm : fuzzy_matches sim tdn k = true := by
    unfold fuzzy_matches
    rcases h4 with h | h | h <;> simp [h]
  exact fuzzy_fold_main sim tds ([], opts) tdn td k h1 h2 ⟨o, h3⟩ hm

/-- Witness for C6: `HAVE_FOO_BAR` (unused, no exact match) is attached to
the option `FOO_BAR` by canonical-name containment, with a scorer that never
fires. -/
theorem c6_fuzzy_attach_witness :
    (("HAVE_FOO_BAR", TempDefine.mk "HAVE_FOO_BAR" "" "" "" false) ∈
       [("HAVE_FOO_BAR", TempDefine.mk "HAVE_FOO_BAR" "" "" "" false)]) ∧
    (TempDefine.mk "HAVE_FOO_BAR" "" "" "" false).used = false ∧
    pyIn (pyUpper "FOO_BAR") (pyUpper "HAVE_FOO_BAR") = true ∧
    ((∃ td', ("HAVE_FOO_BAR", td') ∈
        (fuzzy_match_pass (fun _ _ => false)
          [("HAVE_FOO_BAR", TempDefine.mk "HAVE_FOO_BAR" "" "" "" false)]
          [("FOO_BAR", Opt.make "FOO_BAR" "" "" "" "" "")]).1 ∧ td'.used = true) ∧
     (∃ o', ("FOO_BAR", o') ∈
        (fuzzy_match_pass (fun _ _ => false)
          [("HAVE_FOO_BAR", TempDefine.mk "HAVE_FOO_BAR" "" "" "" false)]
          [("FOO_BAR", Opt.make "FOO_BAR" "" "" "" "" "")]).2 ∧
        "HAVE_FOO_BAR" ∈ o'.extra_defines)) :=
  ⟨by decide, by decide, by decide,
   c6_fuzzy_attach (fun _ _ => false)
     [("HAVE_FOO_BAR", TempDefine.mk "HAVE_FOO_BAR" "" "" "" false)]
     [("FOO_BAR", Opt.make "FOO_BAR" "" "" "" "" "")]
     "HAVE_FOO_BAR" (TempDefine.mk "HAVE_FOO_BAR" "" "" "" false)
     "FOO_BAR" (Opt.make "FOO_BAR" "" "" "" "" "")
     (by decide) (by decide) (by decide) (Or.inr (Or.inr (by decide)))⟩

theorem subdirs_fold_preserve (excl : List String) (dir : String) (l : List String) :
    ∀ (acc : String × List String) (x : List Char) (y : String),
      (x <:+: acc.1.data →
        x <:+: (l.foldl (subdir_step excl dir) acc).1.data) ∧
      (y ∈ acc.2 → y ∈ (l.foldl (subdir_step excl dir) acc).2) := by
  induction l with
  | nil => intro acc x y; exact ⟨id, id⟩
  | cons hd t ih =>
    intro acc x y
    rw [List.foldl_cons]
    constructor
    · intro hx
      refine (ih (subdir_step excl dir acc hd) x y).1 ?_
      unfold subdir_step
      split
      · simp only [String.data_append]
        exact infix_append_of_left _ (infix_append_of_left _ (infix_append_of_left _ hx))
      · exact hx
    · intro hy
      refine (ih (subdir_step excl dir acc hd) x y).2 ?_
      unfold subdir_step
      split
      · exact List.mem_append_left _ hy
      · exact hy

theorem subdirs_fold_mem (excl : List String) (dir : String) (l : List String) :
    ∀ (acc : String × List String) (sub : String), sub ∈ l →
      should_exclude excl (dir ++ "/" ++ sub) = false →
      (("\nadd_subdirectory( " ++ sub ++ " )").data <:+:
         (l.foldl (subdir_step excl dir) acc).1.data) ∧
      (dir ++ "/" ++ sub) ∈ (l.foldl (subdir_step excl dir) acc).2 := by
  induction l with
  | nil => intro acc sub h; cases h
  | cons hd t ih =>
    intro acc sub hmem hexc
    rw [List.foldl_cons]
    rcases List.mem_cons.mp hmem with heq | hmem'
    · subst heq
      constructor
      · refine (subdirs_fold_preserve excl dir t (subdir_step excl dir acc sub)
          ("\nadd_subdirectory( " ++ sub ++ " )").data "").1 ?_
        unfold subdir_step
        rw [if_pos (by simp [hexc])]
        show ("\nadd_subdirectory( " ++ sub ++ " )").data <:+:
          (acc.1 ++ "\nadd_subdirectory( " ++ sub ++ " )").data
        have hsplit : (acc.1 ++ "\nadd_subdirectory( " ++ sub ++ " )").data =
            acc.1.data ++ ("\nadd_subdirectory( " ++ sub ++ " )").data := by
          simp [String.data_append, List.append_assoc]
        rw [hsplit]
        exact infix_append_of_right _ ⟨[], [], by simp⟩
      · refine (subdirs_fold_preserve excl dir t (subdir_step excl dir acc sub)
          [] (dir ++ "/" ++ sub)).2 ?_
        unfold subdir_step
        rw [if_pos (by simp [hexc])]
        exact List.mem_append_right _ (List.mem_singleton.mpr rfl)
    · exact ih _ sub hmem' hexc

theorem fallback_erase_mem (cmake_file_dirs : List String) :
    ∀ (req : List String) (d : String), d ∈ req → d ∉ cmake_file_dirs →
      d ∈ cmake_file_dirs.foldl (fun req dd => req.erase dd) req := by
  induction cmake_file_dirs with
  | nil => intro req d h _; exact h
  | cons c t ih =>
    intro req d h hnot
    rw [List.foldl_cons]
    have hne : d ≠ c := fun he => hnot (he ▸ List.mem_cons_self c t)
    exact ih _ d ((List.mem_erase_of_ne hne).mpr h)
      (fun hm => hnot (List.mem_cons_of_mem _ hm))

/-- C8 (confirmed): a `SUBDIRS` assignment with a non-excluded child emits an
`add_subdirectory( sub )` directive into the directory's extra content and
registers the child as a required directory; a required directory that never
gets its own output unit (and is not excluded) is selected for default-CMake
fallback generation at the end of the run.  The third conjunct checks the
full `process_makefile_am` path on a concrete `SUBDIRS = sub` makefile. -/
theorem c8_subdirs_and_fallback :
    (∀ (excl : List String) (current_directory dirs_val sub : String)
       (extra : List (String × String)) (req : List String),
       sub ∈ pySplitWs dirs_val →
       should_exclude excl (current_directory ++ "/" ++ sub) = false →
       (∃ e, List.lookup current_directory
           (process_subdirs excl current_directory dirs_val extra req).1 = some e ∧
         ("\nadd_subdirectory( " ++ sub ++ " )").data <:+: e.data) ∧
       (current_directory ++ "/" ++ sub) ∈
         (process_subdirs excl current_directory dirs_val extra req).2) ∧
    (∀ (cmake_file_dirs req excl : List String) (d : String),
       d ∈ req → d ∉ cmake_file_dirs → should_exclude excl d = false →
       d ∈ fallback_directories cmake_file_dirs req excl) ∧
    ((process_makefile_am [] "src" ["SUBDIRS = sub"] emptyConvState).extra_content =
       [("src", "\nadd_subdirectory( sub )")] ∧
     (process_makefile_am [] "src" ["SUBDIRS = sub"] emptyConvState).required_directories =
       ["src/sub"]) := by
  refine ⟨?_, ?_, by decide, by decide⟩
  · intro excl dir dirs_val sub extra req hsub hexc
    have hne : dirs_val ≠ "" := by
      intro he
      rw [he] at hsub
      have hnil : pySplitWs "" = [] := rfl
      rw [hnil] at hsub
      exact absurd hsub (List.not_mem_nil _)
    unfold process_subdirs
    rw [if_pos hne]
    obtain ⟨hinf, hmem⟩ := subdirs_fold_mem excl dir (pySplitWs dirs_val)
      ("", req) sub hsub hexc
    exact ⟨⟨_, lookup_aset_self _ _ _, hinf⟩, hmem⟩
  · intro cmake_file_dirs req excl d h1 h2 h3
    unfold fallback_directories
    refine List.mem_filter.mpr ⟨fallback_erase_mem cmake_file_dirs req d h1 h2, ?_⟩
    simp [h3]

/-- Witness for C8 at a concrete directory, subdirectory and state. -/
theorem c8_subdirs_and_fallback_witness :
    ("sub" ∈ pySplitWs "sub other") ∧
    should_exclude ["excluded"] ("src" ++ "/" ++ "sub") = false ∧
    ((∃ e, List.lookup "src"
        (process_subdirs ["excluded"] "src" "sub other" [] ["pre"]).1 = some e ∧
      ("\nadd_subdirectory( " ++ "sub" ++ " )").data <:+: e.data) ∧
     ("src" ++ "/" ++ "sub") ∈
       (process_subdirs ["excluded"] "src" "sub other" [] ["pre"]).2) ∧
    ("q/r" ∈ ["pre", "q/r"] ∧ "q/r" ∉ ["src"] ∧
     "q/r" ∈ fallback_directories ["src"] ["pre", "q/r"] ["excluded"]) :=
  ⟨by decide, by decide,
   c8_subdirs_and_fallback.1 ["excluded"] "src" "sub other" "sub" [] ["pre"]
     (by decide) (by decide),
   by decide, by decide,
   c8_subdirs_and_fallback.2.1 ["src"] ["pre", "q/r"] ["excluded"] "q/r"
     (by decide) (by decide) (by decide)⟩

theorem enable_len (s : String) : ¬ ("Enable " ++ s).length ≤ 1 := by
  rw [String.length_append]
  have h7 : "Enable ".length = 7 := rfl
  omega

theorem finalize_of_filled (o : Opt) (h1 : ¬ o.description.length ≤ 1)
    (h2 : ¬ o.status.length ≤ 1) (h3 : ¬ o.define_description.length ≤ 1) :
    Opt.finalize o = o := by
  unfold Opt.finalize
  simp only [if_neg h1, if_neg h2, if_neg h3]

theorem finalize_description_filled (o : Opt) :
    ¬ (Opt.finalize o).description.length ≤ 1 := by
  unfold Opt.finalize
  by_cases h1 : o.description.length ≤ 1
  · simp only [if_pos h1]; exact enable_len o.name
  · simp only [if_neg h1]; exact h1

theorem finalize_status_filled (o : Opt) : ¬ (Opt.finalize o).status.length ≤ 1 := by
  unfold Opt.finalize
  by_cases h2 : o.status.length ≤ 1
  · simp only [if_pos h2]; decide
  · simp only [if_neg h2]; exact h2

theorem finalize_dd_filled (o : Opt) :
    ¬ (Opt.finalize o).define_description.length ≤ 1 := by
  unfold Opt.finalize
  by_cases h3 : o.define_description.length ≤ 1
  · simp only [if_pos h3]
    by_cases h1 : o.description.length ≤ 1
    · simp only [if_pos h1]; exact enable_len o.name
    · simp only [if_neg h1]; exact h1
  · simp only [if_neg h3]; exact h3

theorem finalize_idem (o : Opt) : (Opt.finalize o).finalize = Opt.finalize o :=
  finalize_of_filled (Opt.finalize o) (finalize_description_filled o)
    (finalize_status_filled o) (finalize_dd_filled o)

theorem finKV_idem (kv : String × Opt) : finKV (finKV kv) = finKV kv := by
  unfold finKV
  rw [finalize_idem]

theorem map_finKV_idem (l : List (String × Opt)) :
    (l.map finKV).map finKV = l.map finKV := by
  rw [List.map_map]
  exact List.map_congr_left (fun kv _ => finKV_idem kv)

theorem orderedInsert_map_finKV (a : String × Opt) (l : List (String × Opt)) :
    List.orderedInsert optLe (finKV a) (l.map finKV) =
      (List.orderedInsert optLe a l).map finKV := by
  induction l with
  | nil => rfl
  | cons b t ih =>
    simp only [List.map_cons, List.orderedInsert]
    have hle : optLe (finKV a) (finKV b) ↔ optLe a b := Iff.rfl
    by_cases h : optLe a b
    · rw [if_pos (hle.mpr h), if_pos h, List.map_cons, List.map_cons]
    · rw [if_neg (fun hh => h (hle.mp hh)), if_neg h, List.map_cons, ih]

theorem insertionSort_map_finKV (l : List (String × Opt)) :
    List.insertionSort optLe (l.map finKV) = (List.insertionSort optLe l).map finKV := by
  induction l with
  | nil => rfl
  | cons a t ih =>
    simp only [List.map_cons, List.insertionSort]
    rw [ih, orderedInsert_map_finKV]

theorem top_level_text_idem (ts : String) (opts : List (String × Opt))
    (tds : List (String × TempDefine)) :
    top_level_text ts (opts.map finKV) tds = top_level_text ts opts tds := by
  unfold top_level_text sorted_options
  rw [insertionSort_map_finKV, map_finKV_idem]

theorem library_content_snd (opts : List (String × Opt))
    (cfg : List (String × List String)) (fs : List String) (lib : Library) :
    (library_content opts cfg fs lib).2 = lib ∨
    (library_content opts cfg fs lib).2 =
      { lib with condition := PyStrList.str lib.condition.flat } := by
  unfold library_content
  by_cases ht : lib.condition.truthy = true
  · simp only [ht, if_true]
    split
    · left; rfl
    · right; rfl
  · simp only [Bool.not_eq_true] at ht
    simp only [ht, Bool.false_eq_true, if_false]
    exact Or.inl trivial

theorem library_content_state_of_empty (opts : List (String × Opt))
    (cfg : List (String × List String)) (fs : List String) (lib : Library)
    (h : lib.condition = PyStrList.list []) :
    (library_content opts cfg fs lib).2 = lib := by
  unfold library_content
  have ht : lib.condition.truthy = false := by rw [h]; rfl
  simp only [ht, Bool.false_eq_true, if_false]

theorem forall₂_map_self {α β : Type} (R : α → β → Prop) (g : α → β) (l : List α)
    (h : ∀ a ∈ l, R a (g a)) : List.Forall₂ R l (l.map g) := by
  induction l with
  | nil => exact List.Forall₂.nil
  | cons a t ih =>
    exact List.Forall₂.cons (h a (List.mem_cons_self a t))
      (ih (fun x hx => h x (List.mem_cons_of_mem _ hx)))

theorem library_content_frame_rel (opts : List (String × Opt))
    (cfg : List (String × List String)) (fs : List String) (lib : Library) :
    libFrameRel lib (library_content opts cfg fs lib).2 := by
  rcases library_content_snd opts cfg fs lib with hc | hc <;> rw [hc] <;>
    simp [libFrameRel]

/-- C1 (code-bug evaluation): on the fixture — option `FOO` bound to
`HAVE_X`, a library whose sources sit under `if HAVE_X` — the parser records
the condition as a Python list of characters; the generator's comparison of
that list against the option's define string (`pyEqStrV`) is always `False`,
so the emitted guard is the raw token `if (HAVE_X)` and never the option-name
guard `if (FOO)` promised by the claim. -/
theorem c1_condition_guard_eval :
    fx_parsed.libraries.map Library.condition =
      [PyStrList.list ["H", "A", "V", "E", "_", "X"]] ∧
    (List.lookup "foo" fx_parsed.options).map Opt.define = some "HAVE_X" ∧
    (List.lookup "foo" fx_parsed.options).map Opt.name = some "FOO" ∧
    pyIn "if (HAVE_X)" ((generate_output "TS" fx_fs fx_parsed).lib_texts.getD 0 "") = true ∧
    pyIn "if (FOO)" ((generate_output "TS" fx_fs fx_parsed).lib_texts.getD 0 "") = false := by
  set_option maxRecDepth 100000 in decide

/-- C3 (counterexample): generation is not idempotent — re-running the
generation phase over the state left by a first run changes the emitted
guard, because the first run rewrote the recorded condition from a character
list into a string, which then matches the option's define. -/
theorem c3_counterexample :
    (generate_output "TS" fx_fs (generate_output "TS" fx_fs fx_parsed).state).lib_texts ≠
      (generate_output "TS" fx_fs fx_parsed).lib_texts := by
  decide

/-- C3 (amended): at a fixed timestamp, generation is idempotent for every
parsed model in which no target carries a recorded build condition; the first
run then leaves the Build Model unchanged (options are finalized, but
finalization is idempotent and preserves names and defines), so a second run
emits byte-identical top-level and per-target texts. -/
theorem c3_generation_idempotent_unconditioned (ts : String) (fs : List String)
    (st : ConvState) (h : ∀ lib ∈ st.libraries, lib.condition = PyStrList.list []) :
    (generate_output ts fs (generate_output ts fs st).state).top =
      (generate_output ts fs st).top ∧
    (generate_output ts fs (generate_output ts fs st).state).lib_texts =
      (generate_output ts fs st).lib_texts := by
  simp only [generate_output]
  constructor
  · exact top_level_text_idem ts st.options st.temp_defines
  · rw [map_finKV_idem]
    have hlibs : (st.libraries.map (library_content (st.options.map finKV)
        st.config_ac_variables fs)).map Prod.snd = st.libraries := by
      rw [List.map_map]
      have hcong : ∀ lib ∈ st.libraries,
          (Prod.snd ∘ library_content (st.options.map finKV) st.config_ac_variables fs)
            lib = id lib :=
        fun lib hm => library_content_state_of_empty _ _ _ _ (h lib hm)
      rw [List.map_congr_left hcong, List.map_id]
    rw [hlibs]

/-- Witness for the amended C3 on a concrete unconditioned model. -/
theorem c3_generation_idempotent_witness :
    (∀ lib ∈ fx_state_nocond.libraries, lib.condition = PyStrList.list []) ∧
    ((generate_output "TS" fx_fs
        (generate_output "TS" fx_fs fx_state_nocond).state).top =
      (generate_output "TS" fx_fs fx_state_nocond).top ∧
     (generate_output "TS" fx_fs
        (generate_output "TS" fx_fs fx_state_nocond).state).lib_texts =
      (generate_output "TS" fx_fs fx_state_nocond).lib_texts) :=
  ⟨by decide,
   c3_generation_idempotent_unconditioned "TS" fx_fs fx_state_nocond (by decide)⟩

/-- C4 (counterexample): generation mutates the parsed input state beyond
Define used-flags — the fixture library's `condition` field is a character
list before generation and a string afterwards. -/
theorem c4_counterexample :
    fx_parsed.libraries.map Library.condition =
      [PyStrList.list ["H", "A", "V", "E", "_", "X"]] ∧
    (generate_output "TS" fx_fs fx_parsed).state.libraries.map Library.condition =
      [PyStrList.str "HAVE_X"] ∧
    PyStrList.str "HAVE_X" ≠ PyStrList.list ["H", "A", "V", "E", "_", "X"] := by
  decide

/-- C4 (amended): the generator preserves Defines (it never even marks them
used — that happens during parsing), the shell-variable tables, and every
Library field except `condition`; of every Option it preserves the key, name,
bound define, define value and extra defines (description, status and
define-description are filled by finalization). -/
theorem c4_generation_frame (ts : String) (fs : List String) (st : ConvState) :
    (generate_output ts fs st).state.temp_defines = st.temp_defines ∧
    (generate_output ts fs st).state.config_ac_variables = st.config_ac_variables ∧
    (generate_output ts fs st).state.extra_content = st.extra_content ∧
    (generate_output ts fs st).state.required_directories = st.required_directories ∧
    List.Forall₂ libFrameRel st.libraries (generate_output ts fs st).state.libraries ∧
    List.Forall₂ optFrameRel st.options (generate_output ts fs st).state.options := by
  simp only [generate_output]
  refine ⟨trivial, trivial, trivial, trivial, ?_, ?_⟩
  · rw [List.map_map]
    exact forall₂_map_self _ _ _ (fun lib _ => library_content_frame_rel _ _ _ lib)
  · exact forall₂_map_self _ _ _ (fun kv _ => ⟨rfl, rfl, rfl, rfl, rfl⟩)
